import Mathlib

/-!
# vultr-cloudinit: translation of Vultr instance metadata into NoCloud seed files

A shallow embedding of `main.go`.  Go strings are modelled by `String`, slices by
`List` (a nil slice and an empty slice are both `[]`), `int` by `Int` or, for loop
indices, by `Nat`.  The standard-library functions the program calls
(`strings.Split`, `net.IP.To4`, `net.IP.IsLoopback`, `path.Join`, `ioutil.WriteFile`)
are modelled after their Go implementations; everything that comes from outside the
process (the command line, the file system, the network interface, the metadata
service, the JSON and YAML encoders) is a field of the environment `Env`.
-/

namespace VultrCloudinit

/-! ## Data model (`main.go`, lines 30-79) -/

/-- The anonymous struct `IPv4` of `VultrInterfaces`. -/
structure VultrIPv4 where
  Address : String
  Gateway : String
  Netmask : String
  deriving DecidableEq, Repr

/-- Go struct `VultrInterfaces`. -/
structure VultrInterfaces where
  Mac : String
  NetworkType : String
  NetworkID : String
  IPv4 : VultrIPv4
  deriving DecidableEq, Repr

/-- The anonymous struct `Region` of `VultrMetadata`. -/
structure VultrRegion where
  RegionCode : String
  deriving DecidableEq, Repr

/-- Go struct `VultrMetadata`. -/
structure VultrMetadata where
  Hostname : String
  InstanceID : String
  Interfaces : List VultrInterfaces
  PublicKeys : String
  Region : VultrRegion
  deriving DecidableEq, Repr

/-- Go struct `NoCloudMetadata`. -/
structure NoCloudMetadata where
  AmiID : String
  InstanceID : String
  Region : String
  AvailabilityZone : String
  Tags : List String
  PublicKeys : List String
  Hostname : String
  LocalHostname : String
  deriving DecidableEq, Repr

/-- Go struct `NoCloudNetworkSubnet`; the field `Type` is spelled `Typ`. -/
structure NoCloudNetworkSubnet where
  Typ : String
  Address : String
  Netmask : String
  deriving DecidableEq, Repr

/-- Go struct `NoCloudNetworkInterface`; the field `Type` is spelled `Typ`. -/
structure NoCloudNetworkInterface where
  Typ : String
  Name : String
  MacAddress : String
  Subnets : List NoCloudNetworkSubnet
  MTU : Int
  deriving DecidableEq, Repr

/-- Go struct `NoCloudNetworkConfig`. -/
structure NoCloudNetworkConfig where
  Version : Int
  Config : List NoCloudNetworkInterface
  deriving DecidableEq, Repr

/-! ## `strings.Split(s, "\n")`

Go's `genSplit` for a one-byte separator: `n` is `Count(s, sep) + 1`, clamped to
`len(s) + 1`; the loop cuts at `Index(s, sep)` at most `n - 1` times and the rest of
the string is the last segment. -/

/-- Go `strings.Index(s, sep)` for a one-character `sep`; `none` stands for `-1`. -/
def stringsIndex (sep : Char) : List Char → Option Nat
  | [] => none
  | c :: cs => if c = sep then some 0 else (stringsIndex sep cs).map (· + 1)

/-- Go `strings.Count(s, sep)` for a one-character `sep`. -/
def stringsCount (sep : Char) : List Char → Nat
  | [] => 0
  | c :: cs => if c = sep then stringsCount sep cs + 1 else stringsCount sep cs

/-- The loop `for i < n` of `genSplit`: `k` is the number of cuts still allowed. -/
def genSplitLoop (sep : Char) : Nat → List Char → List (List Char)
  | 0, s => [s]
  | k + 1, s =>
    match stringsIndex sep s with
    | none => [s]
    | some m => s.take m :: genSplitLoop sep k (s.drop (m + 1))

/-- Go `genSplit(s, sep, 0, -1)` for a one-character `sep`. -/
def genSplit (sep : Char) (s : List Char) : List (List Char) :=
  let n := min (stringsCount sep s + 1) (s.length + 1)
  genSplitLoop sep (n - 1) s

/-- Go `strings.Split(s, "\n")`. -/
def stringsSplitNewline (s : String) : List String :=
  (genSplit '\n' s.data).map String.mk

/-! ## Metadata translation (`main`, lines 169-184) -/

/-- The loop of lines 179-184 over the segments still to visit; `acc` is
`noCloudMetadata.PublicKeys` so far. -/
def publicKeysLoop : List String → List String → List String
  | [], acc => acc
  | publicKey :: rest, acc =>
    if publicKey.length = 0 then publicKeysLoop rest acc
    else publicKeysLoop rest (acc ++ [publicKey])

/-- The value of `noCloudMetadata` when `writeMetadata` is called (lines 169-184). -/
def noCloudMetadata (vultrMetadata : VultrMetadata) : NoCloudMetadata :=
  { AmiID := "unknown"
    InstanceID := vultrMetadata.InstanceID
    Region := vultrMetadata.Region.RegionCode
    AvailabilityZone := "unknown"
    Tags := []
    PublicKeys := publicKeysLoop (stringsSplitNewline vultrMetadata.PublicKeys) []
    Hostname := vultrMetadata.Hostname
    LocalHostname := vultrMetadata.Hostname }

/-! ## Network-config translation (`main`, lines 191-214) -/

/-- Go `fmt.Sprintf("eth%d", i)` for a slice index `i`. -/
def sprintfEth (i : Nat) : String := "eth" ++ Nat.repr i

/-- The struct literal appended at lines 201-213 for the interface at index `i`. -/
def networkInterface (i : Nat) (vInterface : VultrInterfaces) : NoCloudNetworkInterface :=
  { Typ := "physical"
    Name := sprintfEth i
    MacAddress := vInterface.Mac
    Subnets := [{ Typ := "static"
                  Address := vInterface.IPv4.Address
                  Netmask := vInterface.IPv4.Netmask }]
    MTU := 1450 }

/-- The loop of lines 196-214: `i` is the index of the head of the remaining
interfaces, `acc` is `noCloudNetworkConfig.Config` so far. -/
def interfacesLoop : Nat → List VultrInterfaces → List NoCloudNetworkInterface →
    List NoCloudNetworkInterface
  | _, [], acc => acc
  | i, vInterface :: rest, acc =>
    if vInterface.NetworkType ≠ "private" then interfacesLoop (i + 1) rest acc
    else interfacesLoop (i + 1) rest (acc ++ [networkInterface i vInterface])

/-- The value of `noCloudNetworkConfig` when `writeNetworkConfig` is called
(lines 191-214). -/
def noCloudNetworkConfig (vultrMetadata : VultrMetadata) : NoCloudNetworkConfig :=
  { Version := 2
    Config := interfacesLoop 0 vultrMetadata.Interfaces [] }

/-- The interface list of the index-preservation example: public `A`, private `B`,
private `C`. -/
def exampleInterfaces : List VultrInterfaces :=
  [ { Mac := "A", NetworkType := "public", NetworkID := "",
      IPv4 := { Address := "203.0.113.7", Gateway := "203.0.113.1", Netmask := "255.255.255.0" } },
    { Mac := "B", NetworkType := "private", NetworkID := "net1",
      IPv4 := { Address := "10.1.0.2", Gateway := "10.1.0.1", Netmask := "255.255.255.0" } },
    { Mac := "C", NetworkType := "private", NetworkID := "net2",
      IPv4 := { Address := "10.1.0.3", Gateway := "10.1.0.1", Netmask := "255.255.255.0" } } ]

/-- A provider document carrying `exampleInterfaces` and the key block
`"keyA\n\nkeyB\n"`. -/
def exampleDocument : VultrMetadata :=
  { Hostname := "guest"
    InstanceID := "i-1"
    Interfaces := exampleInterfaces
    PublicKeys := "keyA\n\nkeyB\n"
    Region := { RegionCode := "EWR" } }

/-! ## `net.IP` (Go standard library)

An address is its byte slice; a byte is a `Nat`. -/

/-- Go `net.IP`, a byte slice. -/
abbrev IP := List Nat

/-- Go `net.v4InV6Prefix`. -/
def v4InV6Prefix : List Nat := [0, 0, 0, 0, 0, 0, 0, 0, 0, 0, 0xff, 0xff]

/-- Go `net.IPv6loopback`, the address `::1`. -/
def IPv6loopback : IP := [0, 0, 0, 0, 0, 0, 0, 0, 0, 0, 0, 0, 0, 0, 0, 1]

/-- Go `net.isZeros`. -/
def isZeros (p : List Nat) : Bool := p.all (fun b => b == 0)

/-- Go `net.IP.To4`; `none` stands for the nil slice. -/
def To4 (ip : IP) : Option IP :=
  if ip.length = 4 then some ip
  else if ip.length = 16 ∧ isZeros (ip.take 10) = true ∧ ip[10]? = some 0xff ∧
      ip[11]? = some 0xff then
    some ((ip.drop 12).take 4)
  else none

/-- Go `net.IP.Equal`. -/
def ipEqual (ip x : IP) : Bool :=
  if ip.length = x.length then ip == x
  else if ip.length = 4 ∧ x.length = 16 then
    (x.take 12 == v4InV6Prefix) && (ip == x.drop 12)
  else if ip.length = 16 ∧ x.length = 4 then
    (ip.take 12 == v4InV6Prefix) && (ip.drop 12 == x)
  else false

/-- Go `net.IP.IsLoopback`. -/
def IsLoopback (ip : IP) : Bool :=
  match To4 ip with
  | some ip4 => ip4.head? == some 127
  | none => ipEqual ip IPv6loopback

/-- Go `net.IPv4(a, b, c, d)`: the 16-byte form of an IPv4 address, as
`Interface.Addrs` reports it. -/
def IPv4 (a b c d : Nat) : IP := v4InV6Prefix ++ [a, b, c, d]

/-- Go `net.Addr`, by dynamic type: `*net.IPNet`, `*net.IPAddr`, or any other
implementation. -/
inductive Addr where
  | IPNet (ip : IP) (mask : List Nat)
  | IPAddr (ip : IP) (zone : String)
  | other (network : String) (str : String)
  deriving DecidableEq, Repr

/-! ## Address selection (`main`, lines 132-156) -/

/-- The type switch of lines 133-139: `none` is the nil pointer. -/
def addrIP : Addr → Option IP
  | .IPNet ip _ => some ip
  | .IPAddr ip _ => some ip
  | .other _ _ => none

/-- The loop `for _, addr := range addrs` of lines 132-156: the value of `eth0IP`
after the loop (`none` is nil). -/
def addrLoop : List Addr → Option IP
  | [] => none
  | addr :: rest =>
    match addrIP addr with
    | none => addrLoop rest
    | some ip =>
      if IsLoopback ip = true then addrLoop rest
      else if To4 ip = none then addrLoop rest
      else some ip

/-- The address list `[::1, 127.0.0.1, 10.0.0.5/24, fe80::1]`. -/
def exampleAddrs : List Addr :=
  [ .IPNet IPv6loopback (List.replicate 16 0xff),
    .IPNet (IPv4 127 0 0 1) [0xff, 0, 0, 0],
    .IPNet (IPv4 10 0 0 5) [0xff, 0xff, 0xff, 0],
    .IPNet [0xfe, 0x80, 0, 0, 0, 0, 0, 0, 0, 0, 0, 0, 0, 0, 0, 1]
      [0xff, 0xff, 0xff, 0xff, 0xff, 0xff, 0xff, 0xff, 0, 0, 0, 0, 0, 0, 0, 0] ]

/-! ## `path.Join` (Go standard library) -/

/-- The backtracking of `path.Clean` on `..`, after `out.w--`: the buffer is kept
reversed, `last` is `out.index(out.w)`; the loop is
`for out.w > dotdot && out.index(out.w) != '/' { out.w-- }`. -/
def backtrackLoop (dotdot : Nat) : List Char → Char → List Char
  | [], _ => []
  | c :: out, last =>
    if (c :: out).length > dotdot ∧ last ≠ '/' then backtrackLoop dotdot out c
    else c :: out

/-- The loop `for r < n` of `path.Clean`: `rest` is `path[r:]`, `out` the buffer
written so far, reversed; the result is the final buffer, reversed. -/
def cleanLoop (rooted : Bool) : Nat → List Char → List Char → Nat → List Char
  | 0, _, out, _ => out
  | _ + 1, [], out, _ => out
  | fuel + 1, c :: r, out, dotdot =>
    if c = '/' then cleanLoop rooted fuel r out dotdot
    else if c = '.' ∧ (r = [] ∨ r.head? = some '/') then cleanLoop rooted fuel r out dotdot
    else if c = '.' ∧ r.head? = some '.' ∧ (r.tail = [] ∨ r.tail.head? = some '/') then
      if out.length > dotdot then
        match out with
        | [] => cleanLoop rooted fuel r.tail out dotdot
        | last :: out1 => cleanLoop rooted fuel r.tail (backtrackLoop dotdot out1 last) dotdot
      else if rooted = false then
        let out1 := if out.length > 0 then '/' :: out else out
        cleanLoop rooted fuel r.tail ('.' :: '.' :: out1) (out1.length + 2)
      else cleanLoop rooted fuel r.tail out dotdot
    else
      let out1 :=
        if (rooted = true ∧ out.length ≠ 1) ∨ (rooted = false ∧ out.length ≠ 0) then '/' :: out
        else out
      cleanLoop rooted fuel ((c :: r).dropWhile (fun x => x != '/'))
        (((c :: r).takeWhile (fun x => x != '/')).reverse ++ out1) dotdot

/-- Go `path.Clean`. -/
def pathClean (path : List Char) : List Char :=
  if path = [] then ['.']
  else
    let rooted := path.head? == some '/'
    let out :=
      if rooted = true then cleanLoop true path.length path.tail ['/'] 1
      else cleanLoop false path.length path [] 0
    if out = [] then ['.'] else out.reverse

/-- The buffer that `path.Join` builds before cleaning: the non-leading-empty
elements separated by `/`. -/
def joinBuf : List (List Char) → List Char → List Char
  | [], buf => buf
  | e :: elem, buf =>
    if buf.length > 0 ∨ e ≠ [] then
      joinBuf elem ((if buf.length > 0 then buf ++ ['/'] else buf) ++ e)
    else joinBuf elem buf

/-- Go `path.Join(elem...)`. -/
def pathJoin (elem : List String) : String :=
  if (elem.map String.length).sum = 0 then ""
  else String.mk (pathClean (joinBuf (elem.map String.data) []))

/-! ## The environment of one run -/

/-- Go `os.FileInfo`, as far as `main` looks at it. -/
structure FileInfo where
  IsDir : Bool
  deriving DecidableEq, Repr

/-- A Go `error` returned by `os.Stat`: its text and what `os.IsNotExist` says of it. -/
structure StatError where
  Error : String
  IsNotExist : Bool
  deriving DecidableEq, Repr

/-- The two results `(f, err)` of `os.Stat`: a file info and a nil error, or a nil
file info and an error. -/
inductive StatResult where
  | ok (f : FileInfo)
  | fail (err : StatError)
  deriving DecidableEq, Repr

/-- The `*http.Response` of `ctxhttp.Get`: the status code, and what
`ioutil.ReadAll(response.Body)` returns. -/
structure Response where
  StatusCode : Int
  Body : Except String String

/-- How one call of `ioutil.WriteFile` ends: `OpenFile` fails and the file is
untouched; or the file is created or truncated and `Write` or `Close` fails after
`n` characters reached it; or the whole data is written. -/
inductive WriteResult where
  | ok
  | openError (err : String)
  | writeError (err : String) (n : Nat)
  deriving DecidableEq, Repr

/-- Everything that `main` reads from outside the process.  The goroutine of lines
104-111, which runs the DHCP client, is seen by the main goroutine only through
`dhclient.Process`: the two fields `processAtFound` and `processAtReturn` say what
the main goroutine reads there. -/
structure Env where
  /-- The value of the flag `-o` after `flag.Parse()`. -/
  outputDirectory : String
  /-- The result of `os.Stat(*outputDirectory)`. -/
  stat : StatResult
  /-- The error of `net.InterfaceByName("eth0")`; `none` is nil. -/
  interfaceByName : Option String
  /-- The result of the call number `k` (from 0) of `iface.Addrs()`. -/
  addrs : Nat → Except String (List Addr)
  /-- Whether `dhclient.Process != nil` at line 152, when an address is found. -/
  processAtFound : Bool
  /-- Whether `dhclient.Process != nil` at line 113, in the deferred function. -/
  processAtReturn : Bool
  /-- The result of `ctxhttp.Get` within the 120 s of `timeoutContext`. -/
  get : Except String Response
  /-- Go `json.Unmarshal` into a `VultrMetadata`. -/
  unmarshal : String → Except String VultrMetadata
  /-- Go `json.Marshal` of a `NoCloudMetadata`. -/
  jsonMarshal : NoCloudMetadata → String
  /-- Go `yaml.Marshal` of a `NoCloudNetworkConfig`. -/
  yamlMarshal : NoCloudNetworkConfig → String
  /-- How `ioutil.WriteFile` ends on a given file name. -/
  writeFile : String → WriteResult
  /-- The files under their names when the process starts. -/
  files : String → Option String

/-- What the main goroutine does to the outside, in order. -/
inductive Event where
  /-- Lines 103-111: `go dhclient.Run()` for the command `name args`. -/
  | startHelper (name : String) (args : List String)
  /-- Line 119: `net.InterfaceByName(name)`. -/
  | interfaceByName (name : String)
  /-- Line 128: `iface.Addrs()`. -/
  | addrs
  /-- Lines 114 and 153: `dhclient.Process.Kill()`. -/
  | kill
  /-- Line 159: `time.Sleep` of so many nanoseconds. -/
  | sleep (ns : Nat)
  /-- Line 237: `ctxhttp.Get` of `url` under a context with a timeout in nanoseconds. -/
  | get (url : String) (timeout : Nat)
  /-- Lines 264, 276, 285: `ioutil.WriteFile(filename, data, perm)`. -/
  | writeFile (filename : String) (data : String) (perm : Nat)
  deriving DecidableEq, Repr

/-- The trace of events so far and the files under their names. -/
structure World where
  trace : List Event
  files : String → Option String

/-- How the process ends: `main` returns (exit status 0); `logrus.Fatal` or
`logrus.Fatalf` logs the message and calls `os.Exit(1)`; a run-time panic. -/
inductive Outcome where
  | returned
  | fatal (msg : String)
  | panic (msg : String)
  deriving DecidableEq, Repr

/-- A finished run: the final world and how the process ended. -/
structure Run where
  world : World
  outcome : Outcome

/-- Go `time.Second`, in nanoseconds. -/
def timeSecond : Nat := 1000000000

/-- The duration of `timeoutContext` (line 82), in nanoseconds. -/
def timeoutContext : Nat := 120 * timeSecond

/-- Appends an event to the trace. -/
def World.emit (w : World) (e : Event) : World :=
  { w with trace := w.trace ++ [e] }

/-- Go `logrus.Fatal` / `logrus.Fatalf`: the process exits at once through
`os.Exit(1)`; deferred functions are not run. -/
def fatal (w : World) (msg : String) : Run :=
  { world := w, outcome := .fatal msg }

/-- The deferred function of lines 112-116. -/
def deferredKill (env : Env) (w : World) : World :=
  if env.processAtReturn = true then w.emit .kill else w

/-- The return of `main` at line 231: the deferred function runs, then the process
exits with status 0. -/
def returnMain (env : Env) (w : World) : Run :=
  { world := deferredKill env w, outcome := .returned }

/-! ## `ioutil.WriteFile` and the three writers (lines 261-291) -/

/-- Go `ioutil.WriteFile(filename, data, perm)`: the new world and the error
(`none` is nil). -/
def ioutilWriteFile (env : Env) (w : World) (filename data : String) (perm : Nat) :
    World × Option String :=
  let w1 := w.emit (.writeFile filename data perm)
  match env.writeFile filename with
  | .ok => ({ w1 with files := Function.update w1.files filename (some data) }, none)
  | .openError err => (w1, some err)
  | .writeError err n =>
    ({ w1 with files := Function.update w1.files filename (some (data.take n)) }, some err)

/-- Go `writeMetadata` (lines 261-270). -/
def writeMetadata (env : Env) (w : World) (noCloudMetadata : NoCloudMetadata)
    (outputDirectory : String) : World × Option String :=
  let noCloudMetadataBytes := env.jsonMarshal noCloudMetadata
  match ioutilWriteFile env w (pathJoin [outputDirectory, "meta-data"])
      noCloudMetadataBytes 0o644 with
  | (w1, some err) => (w1, some ("Error writing metadata file: " ++ err))
  | (w1, none) => (w1, none)

/-- Go `writeNetworkConfig` (lines 272-282). -/
def writeNetworkConfig (env : Env) (w : World) (noCloudNetworkConfig : NoCloudNetworkConfig)
    (outputDirectory : String) : World × Option String :=
  let noCloudMetadataBytes := env.yamlMarshal noCloudNetworkConfig
  match ioutilWriteFile env w (pathJoin [outputDirectory, "network-config"])
      noCloudMetadataBytes 0o644 with
  | (w1, some err) => (w1, some ("Error writing network config file: " ++ err))
  | (w1, none) => (w1, none)

/-- Go `writeUserData` (lines 284-291). -/
def writeUserData (env : Env) (w : World) (userdata : String) (outputDirectory : String) :
    World × Option String :=
  match ioutilWriteFile env w (pathJoin [outputDirectory, "user-data"]) userdata 0o644 with
  | (w1, some err) => (w1, some ("Error writing metadata file: " ++ err))
  | (w1, none) => (w1, none)

/-! ## `getMetadata` (lines 233-259) -/

/-- Go `getMetadata`: the decoded document or the error. -/
def getMetadata (env : Env) : Except String VultrMetadata :=
  match env.get with
  | .error err => .error ("error getting metadata: " ++ err)
  | .ok response =>
    match response.Body with
    | .error err => .error ("error reading response body: " ++ err)
    | .ok responseData =>
      if response.StatusCode ≠ 200 then
        .error ("invalid response from metadata service: " ++ responseData)
      else
        match env.unmarshal responseData with
        | .error err => .error ("error json unmarshalling metadata: " ++ err)
        | .ok metadata => .ok metadata

/-! ## `main` (lines 85-231) -/

/-- Lines 169-231: translation and the three writes, then the return. -/
def mainWrite (env : Env) (w : World) (vultrMetadata : VultrMetadata) : Run :=
  match writeMetadata env w (noCloudMetadata vultrMetadata) env.outputDirectory with
  | (w1, some err) => fatal w1 err
  | (w1, none) =>
    match writeNetworkConfig env w1 (noCloudNetworkConfig vultrMetadata)
        env.outputDirectory with
    | (w2, some err) => fatal w2 err
    | (w2, none) =>
      match writeUserData env w2 "" env.outputDirectory with
      | (w3, some err) => fatal w3 err
      | (w3, none) => returnMain env w3

/-- Lines 163-231: the fetch and what follows it. -/
def mainFetch (env : Env) (w : World) : Run :=
  let w1 := w.emit (.get "http://169.254.169.254/v1.json" timeoutContext)
  match getMetadata env with
  | .error err => fatal w1 err
  | .ok vultrMetadata => mainWrite env w1 vultrMetadata

/-- The loop `for eth0IP == nil` of lines 127-161, with `k` calls of `iface.Addrs()`
already made: the world after the loop and `eth0IP`, or the error of
`iface.Addrs()`.  `none` when `fuel` iterations do not end the loop. -/
def awaitLoop (env : Env) : Nat → Nat → World → Option (World × Except String IP)
  | 0, _, _ => none
  | fuel + 1, k, w =>
    let w1 := w.emit .addrs
    match env.addrs k with
    | .error err => some (w1, .error err)
    | .ok addrs =>
      match addrLoop addrs with
      | some ip => some (if env.processAtFound = true then w1.emit .kill else w1, .ok ip)
      | none => awaitLoop env fuel (k + 1) (w1.emit (.sleep (5 * timeSecond)))

/-- Lines 102-231: from the start of the DHCP client on. -/
def mainNetwork (fuel : Nat) (env : Env) (w : World) : Option Run :=
  let w1 := w.emit (.startHelper "/usr/sbin/dhclient" ["-1", "-v", "-d", "eth0"])
  let w2 := w1.emit (.interfaceByName "eth0")
  match env.interfaceByName with
  | some err => some (fatal w2 ("Error getting eth0: " ++ err))
  | none =>
    match awaitLoop env fuel 0 w2 with
    | none => none
    | some (w3, .error err) => some (fatal w3 ("Error getting eth0 addresses: " ++ err))
    | some (w3, .ok _) => some (mainFetch env w3)

/-- Go `main`, run for at most `fuel` iterations of the polling loop; `none` when
the loop has not ended by then. -/
def main (fuel : Nat) (env : Env) : Option Run :=
  let w : World := { trace := [], files := env.files }
  if env.outputDirectory.length = 0 then
    some (fatal w "The output directory must be given")
  else
    match env.stat with
    | .ok f =>
      if f.IsDir = false then
        some (fatal w ("Output directory " ++ env.outputDirectory ++ " is not a directory"))
      else mainNetwork fuel env w
    | .fail err =>
      if err.IsNotExist = false then
        some { world := w
               outcome := .panic "runtime error: invalid memory address or nil pointer dereference" }
      else some (fatal w ("Error checking output directory: " ++ err.Error))

/-! ## Reading a finished run -/

/-- The file names of the `ioutil.WriteFile` calls of a trace, in order. -/
def writes : List Event → List String
  | [] => []
  | .writeFile filename _ _ :: tr => filename :: writes tr
  | _ :: tr => writes tr

/-- Whether a trace holds a `dhclient.Process.Kill()`. -/
def killed (tr : List Event) : Bool := tr.contains .kill

/-! ## Specification-side definitions -/

/-- The key sequence as the specification words it: the segments of the block split
on the newline character, zero-length segments removed, order kept. -/
def specPublicKeys (block : String) : List String :=
  ((block.data.splitOn '\n').filter (fun seg => seg.length ≠ 0)).map String.mk

/-- The network entries as the specification words them: one entry per interface
classified `private`, in source order, numbered by the position in the unfiltered
list. -/
def specConfig (interfaces : List VultrInterfaces) : List NoCloudNetworkInterface :=
  (interfaces.enum.filter (fun p => p.2.NetworkType = "private")).map
    (fun p => networkInterface p.1 p.2)

/-- An address qualifies, in the specification's words, when it is an IPv4 address
and not a loopback address. -/
def qualifies (addr : Addr) : Bool :=
  match addrIP addr with
  | none => false
  | some ip => (To4 ip).isSome && !IsLoopback ip

/-- The run gets as far as the metadata fetch after `N` polls without a selected
address: the output directory is given and is a directory, `eth0` exists, the first
`N` address listings succeed and select nothing, and the next one selects `ip`. -/
def ReachesFetch (env : Env) (N : Nat) (ip : IP) : Prop :=
  env.outputDirectory.length ≠ 0 ∧ env.stat = .ok ⟨true⟩ ∧ env.interfaceByName = none ∧
  (∀ k, k < N → ∃ addrs, env.addrs k = .ok addrs ∧ addrs.find? qualifies = none) ∧
  (∃ addrs a, env.addrs N = .ok addrs ∧ addrs.find? qualifies = some a ∧ addrIP a = some ip)

/-- The events of `N` polls without a selected address, each followed by the
5-second sleep. -/
def idlePolls (N : Nat) : List Event :=
  (List.replicate N [Event.addrs, Event.sleep (5 * timeSecond)]).flatten

/-- The trace of a run up to and including the metadata request, after `N` idle
polls. -/
def traceToFetch (env : Env) (N : Nat) : List Event :=
  [Event.startHelper "/usr/sbin/dhclient" ["-1", "-v", "-d", "eth0"],
    Event.interfaceByName "eth0"] ++ idlePolls N ++ [Event.addrs] ++
    (if env.processAtFound = true then [Event.kill] else []) ++
    [Event.get "http://169.254.169.254/v1.json" timeoutContext]

/-! ## Concrete environments -/

/-- An address listing with loopback addresses only. -/
def loopbackAddrs : List Addr :=
  [ .IPNet IPv6loopback (List.replicate 16 0xff), .IPNet (IPv4 127 0 0 1) [0xff, 0, 0, 0] ]

/-- A JSON-like rendering used by the concrete environments. -/
def exampleJson (m : NoCloudMetadata) : String :=
  "\x7b\"instance-id\":\"" ++ m.InstanceID ++ "\",\"hostname\":\"" ++ m.Hostname ++ "\"\x7d"

/-- A YAML-like rendering used by the concrete environments. -/
def exampleYaml (c : NoCloudNetworkConfig) : String :=
  "version: 2\nconfig: " ++ String.intercalate "," (c.Config.map (fun e => e.Name))

/-- A run in which everything works: the directory exists, `eth0` gets its address
on the third poll, the service answers 200 with `exampleDocument`, all writes
succeed. -/
def exampleEnv : Env :=
  { outputDirectory := "/var/lib/cloud/seed/nocloud/"
    stat := .ok ⟨true⟩
    interfaceByName := none
    addrs := fun k => if k < 2 then .ok loopbackAddrs else .ok exampleAddrs
    processAtFound := true
    processAtReturn := true
    get := .ok { StatusCode := 200, Body := .ok "\x7b\x7d" }
    unmarshal := fun _ => .ok exampleDocument
    jsonMarshal := exampleJson
    yamlMarshal := exampleYaml
    writeFile := fun _ => .ok
    files := fun _ => none }

/-- As `exampleEnv`, but the metadata service answers 500. -/
def status500Env : Env :=
  { exampleEnv with get := .ok { StatusCode := 500, Body := .ok "internal error" } }

/-- As `exampleEnv`, but the body does not decode. -/
def badJsonEnv : Env :=
  { exampleEnv with unmarshal := fun _ => .error "unexpected end of JSON input" }

/-- As `exampleEnv`, but the write of `network-config` fails after 3 characters. -/
def diskFullEnv : Env :=
  { exampleEnv with
    writeFile := fun name =>
      if name = "/var/lib/cloud/seed/nocloud/network-config" then
        .writeError "no space left on device" 3
      else .ok }

/-- As `exampleEnv`, but the file `meta-data` cannot be opened for writing. -/
def readOnlyEnv : Env :=
  { exampleEnv with
    writeFile := fun name =>
      if name = "/var/lib/cloud/seed/nocloud/meta-data" then .openError "permission denied"
      else .ok }

/-- As `exampleEnv`, but the write of `user-data` fails after nothing was written. -/
def userDataFailEnv : Env :=
  { exampleEnv with
    writeFile := fun name =>
      if name = "/var/lib/cloud/seed/nocloud/user-data" then
        .writeError "no space left on device" 0
      else .ok }

/-- The error that `ioutil.WriteFile` returns for a write result; `none` is nil. -/
def WriteResult.err : WriteResult → Option String
  | .ok => none
  | .openError err => some err
  | .writeError err _ => some err

/-- As `exampleEnv`, but the second call of `iface.Addrs()` fails. -/
def addrsErrorEnv : Env :=
  { exampleEnv with
    addrs := fun k => if k < 1 then .ok loopbackAddrs else .error "netlink: no such device" }

/-- As `status500Env`, but `eth0` has its address on the first poll, before the
goroutine has started the DHCP client (`dhclient.Process` is still nil at line 152). -/
def earlyAddressEnv : Env :=
  { status500Env with addrs := fun _ => .ok exampleAddrs, processAtFound := false }

/-- As `exampleEnv`, but `-o /etc/hostname/x`: `os.Stat` fails with `ENOTDIR`, which
is not a non-existence error. -/
def notDirErrorEnv : Env :=
  { exampleEnv with
    outputDirectory := "/etc/hostname/x"
    stat := .fail { Error := "stat /etc/hostname/x: not a directory", IsNotExist := false } }

/-- As `exampleEnv`, but there is no interface `eth0`. -/
def noEth0Env : Env :=
  { exampleEnv with interfaceByName := some "route ip+net: no such network interface" }

/-- As `exampleEnv`, but `-o /no/such/dir`: `os.Stat` fails with `ENOENT`. -/
def notExistEnv : Env :=
  { exampleEnv with
    outputDirectory := "/no/such/dir"
    stat := .fail { Error := "stat /no/such/dir: no such file or directory", IsNotExist := true } }

/-- As `exampleEnv`, but `-o /etc/hostname`, a regular file. -/
def regularFileEnv : Env :=
  { exampleEnv with outputDirectory := "/etc/hostname", stat := .ok ⟨false⟩ }

/-- A file name that `path.Clean` leaves alone: not empty, without `/`, and neither
`.` nor `..`. -/
def PlainName (n : List Char) : Prop :=
  n ≠ [] ∧ '/' ∉ n ∧ n ≠ ['.'] ∧ n ≠ ['.', '.']

/-- The world when the metadata request has just been sent, after `N` idle polls. -/
def worldAtFetch (env : Env) (N : Nat) : World :=
  { trace := traceToFetch env N, files := env.files }

/-- The path of the artifact `name` under the output directory. -/
def artifact (env : Env) (name : String) : String :=
  pathJoin [env.outputDirectory, name]

/-- The `ioutil.WriteFile` call of `writeMetadata` for a document. -/
def metaDataWrite (env : Env) (vultrMetadata : VultrMetadata) : Event :=
  .writeFile (artifact env "meta-data") (env.jsonMarshal (noCloudMetadata vultrMetadata)) 0o644

/-- The `ioutil.WriteFile` call of `writeNetworkConfig` for a document. -/
def networkConfigWrite (env : Env) (vultrMetadata : VultrMetadata) : Event :=
  .writeFile (artifact env "network-config")
    (env.yamlMarshal (noCloudNetworkConfig vultrMetadata)) 0o644

/-- The `ioutil.WriteFile` call of `writeUserData`: the empty user data. -/
def userDataWrite (env : Env) : Event :=
  .writeFile (artifact env "user-data") "" 0o644

/-! ## `strings.Split` is the split on the separator -/

theorem stringsCount_le_length (sep : Char) (s : List Char) :
    stringsCount sep s ≤ s.length := by
  induction s with
  | nil => simp [stringsCount]
  | cons c cs ih =>
    simp only [stringsCount, List.length_cons]
    split <;> omega

theorem splitOn_of_stringsIndex_none (sep : Char) (s : List Char)
    (h : stringsIndex sep s = none) : s.splitOn sep = [s] := by
  induction s with
  | nil => rfl
  | cons c cs ih =>
    simp only [stringsIndex] at h
    by_cases hc : c = sep
    · simp [hc] at h
    · simp only [hc, if_false, Option.map_eq_none'] at h
      have ih1 := ih h
      simp only [List.splitOn] at ih1 ⊢
      simp [List.splitOnP_cons, hc, ih1]

theorem splitOn_of_stringsIndex_some (sep : Char) (s : List Char) (m : Nat)
    (h : stringsIndex sep s = some m) :
    s.splitOn sep = s.take m :: (s.drop (m + 1)).splitOn sep := by
  induction s generalizing m with
  | nil => simp [stringsIndex] at h
  | cons c cs ih =>
    simp only [stringsIndex] at h
    by_cases hc : c = sep
    · simp only [hc, if_true, Option.some.injEq] at h
      subst h
      simp [List.splitOn, List.splitOnP_cons, hc]
    · simp only [hc, if_false, Option.map_eq_some'] at h
      obtain ⟨m1, hm1, rfl⟩ := h
      have ih1 := ih m1 hm1
      simp only [List.splitOn] at ih1 ⊢
      simp [List.splitOnP_cons, hc, ih1]

theorem stringsIndex_of_stringsCount_zero (sep : Char) (s : List Char)
    (h : stringsCount sep s = 0) : stringsIndex sep s = none := by
  induction s with
  | nil => rfl
  | cons c cs ih =>
    simp only [stringsCount] at h
    by_cases hc : c = sep
    · simp [hc] at h
    · simp only [hc, if_false] at h
      simp [stringsIndex, hc, ih h]

theorem stringsCount_drop (sep : Char) (s : List Char) (m : Nat)
    (h : stringsIndex sep s = some m) :
    stringsCount sep s = stringsCount sep (s.drop (m + 1)) + 1 := by
  induction s generalizing m with
  | nil => simp [stringsIndex] at h
  | cons c cs ih =>
    simp only [stringsIndex] at h
    by_cases hc : c = sep
    · simp only [hc, if_true, Option.some.injEq] at h
      subst h
      simp [stringsCount, hc]
    · simp only [hc, if_false, Option.map_eq_some'] at h
      obtain ⟨m1, hm1, rfl⟩ := h
      simp [stringsCount, hc, ih m1 hm1]

theorem genSplitLoop_eq_splitOn (sep : Char) (k : Nat) (s : List Char)
    (h : stringsCount sep s ≤ k) : genSplitLoop sep k s = s.splitOn sep := by
  induction k generalizing s with
  | zero =>
    have h0 : stringsCount sep s = 0 := by omega
    rw [splitOn_of_stringsIndex_none sep s (stringsIndex_of_stringsCount_zero sep s h0)]
    rfl
  | succ k ih =>
    simp only [genSplitLoop]
    cases hi : stringsIndex sep s with
    | none => simp [splitOn_of_stringsIndex_none sep s hi]
    | some m =>
      have hc := stringsCount_drop sep s m hi
      simp only [splitOn_of_stringsIndex_some sep s m hi]
      rw [ih (s.drop (m + 1)) (by omega)]

theorem genSplit_eq_splitOn (sep : Char) (s : List Char) :
    genSplit sep s = s.splitOn sep := by
  have h := stringsCount_le_length sep s
  simp only [genSplit]
  apply genSplitLoop_eq_splitOn
  omega

theorem publicKeysLoop_eq_filter (segs acc : List String) :
    publicKeysLoop segs acc = acc ++ segs.filter (fun seg => seg.length ≠ 0) := by
  induction segs generalizing acc with
  | nil => simp [publicKeysLoop]
  | cons seg rest ih =>
    simp only [publicKeysLoop]
    by_cases h : seg.length = 0
    · simp [h, ih]
    · simp [h, ih]

theorem publicKeys_eq_spec (block : String) :
    publicKeysLoop (stringsSplitNewline block) [] = specPublicKeys block := by
  rw [publicKeysLoop_eq_filter, stringsSplitNewline, genSplit_eq_splitOn, specPublicKeys]
  simp only [List.nil_append, List.filter_map]
  rfl

/-! ## The network-config loop is the indexed filter -/

theorem interfacesLoop_eq (i : Nat) (l : List VultrInterfaces)
    (acc : List NoCloudNetworkInterface) :
    interfacesLoop i l acc =
      acc ++ ((l.enumFrom i).filter (fun p => p.2.NetworkType = "private")).map
        (fun p => networkInterface p.1 p.2) := by
  induction l generalizing i acc with
  | nil => simp [interfacesLoop]
  | cons v rest ih =>
    simp only [interfacesLoop, List.enumFrom_cons]
    by_cases h : v.NetworkType = "private"
    · simp [h, ih]
    · simp [h, ih]

theorem interfacesLoop_eq_spec (l : List VultrInterfaces) :
    interfacesLoop 0 l [] = specConfig l := by
  rw [interfacesLoop_eq]
  simp [specConfig, List.enum]

theorem specConfig_length_le (l : List VultrInterfaces) :
    (specConfig l).length ≤ l.length := by
  simp only [specConfig, List.length_map]
  calc (List.filter (fun p => decide (p.2.NetworkType = "private")) l.enum).length
      ≤ l.enum.length := List.length_filter_le _ _
    _ = l.length := List.enum_length

theorem mem_specConfig (l : List VultrInterfaces) (e : NoCloudNetworkInterface) :
    e ∈ specConfig l ↔
      ∃ i v, l[i]? = some v ∧ v.NetworkType = "private" ∧ e = networkInterface i v := by
  simp only [specConfig, List.mem_map, List.mem_filter, decide_eq_true_eq, Prod.exists]
  constructor
  · rintro ⟨i, v, ⟨hm, hp⟩, rfl⟩
    exact ⟨i, v, (List.mem_enum_iff_getElem?).1 hm, hp, rfl⟩
  · rintro ⟨i, v, hm, hp, rfl⟩
    exact ⟨i, v, ⟨(List.mem_enum_iff_getElem?).2 hm, hp⟩, rfl⟩

/-! ## Address selection is the first qualifying address -/

theorem addrLoop_eq_find (addrs : List Addr) :
    addrLoop addrs = (addrs.find? qualifies).bind addrIP := by
  induction addrs with
  | nil => rfl
  | cons addr rest ih =>
    cases hip : addrIP addr with
    | none => simp [addrLoop, List.find?_cons, qualifies, hip, ih]
    | some ip =>
      cases hl : IsLoopback ip with
      | true => simp [addrLoop, List.find?_cons, qualifies, hip, hl, ih]
      | false =>
        cases h4 : To4 ip with
        | none => simp [addrLoop, List.find?_cons, qualifies, hip, hl, h4, ih]
        | some ip4 => simp [addrLoop, List.find?_cons, qualifies, hip, hl, h4]

/-! ## The translation claims -/

/-- C1: for every provider interface list the network config built in `main` holds
exactly one entry per interface whose `NetworkType` is exactly `"private"`, in
source order; the entry made from the interface at position `i` of the unfiltered
list is named `"eth"` followed by the decimal rendering of `i`; no other interface
makes an entry; and for the list public `A`, private `B`, private `C` the entries
are exactly `eth1` (mac `B`) and `eth2` (mac `C`). -/
theorem noCloudNetworkConfig_private_entries_keep_index (vultrMetadata : VultrMetadata) :
    (noCloudNetworkConfig vultrMetadata).Config = specConfig vultrMetadata.Interfaces ∧
    (∀ e, e ∈ (noCloudNetworkConfig vultrMetadata).Config ↔
      ∃ i v, vultrMetadata.Interfaces[i]? = some v ∧ v.NetworkType = "private" ∧
        e = networkInterface i v) ∧
    (∀ i v, (networkInterface i v).Name = "eth" ++ Nat.repr i) ∧
    (noCloudNetworkConfig vultrMetadata).Config.length ≤ vultrMetadata.Interfaces.length ∧
    (noCloudNetworkConfig exampleDocument).Config.map
      (fun e => (e.Name, e.MacAddress)) = [("eth1", "B"), ("eth2", "C")] := by
  have h : (noCloudNetworkConfig vultrMetadata).Config = specConfig vultrMetadata.Interfaces :=
    interfacesLoop_eq_spec vultrMetadata.Interfaces
  refine ⟨h, ?_, fun _ _ => rfl, ?_, by decide⟩
  · intro e
    rw [h]
    exact mem_specConfig _ e
  · rw [h]
    exact specConfig_length_le _

/-- C2: for every public-keys block the `PublicKeys` of the derived metadata are the
segments of the block split on the newline character with every zero-length segment
removed, in the original order; they hold no empty string; and for the block
`"keyA\n\nkeyB\n"` they are exactly `["keyA", "keyB"]`. -/
theorem noCloudMetadata_publicKeys_nonempty_segments (vultrMetadata : VultrMetadata) :
    (noCloudMetadata vultrMetadata).PublicKeys = specPublicKeys vultrMetadata.PublicKeys ∧
    "" ∉ (noCloudMetadata vultrMetadata).PublicKeys ∧
    (noCloudMetadata exampleDocument).PublicKeys =
      ["keyA", "keyB"] := by
  have h : (noCloudMetadata vultrMetadata).PublicKeys =
      specPublicKeys vultrMetadata.PublicKeys := publicKeys_eq_spec _
  refine ⟨h, ?_, by decide⟩
  rw [h]
  simp only [specPublicKeys, List.mem_map, List.mem_filter, not_exists, not_and]
  rintro seg ⟨_, hlen⟩ heq
  have hseg : seg = [] := congrArg String.data heq
  subst hseg
  simp at hlen

/-- C3: for every provider interface classified `"private"` the emitted entry has
type `"physical"`, the source hardware address verbatim, exactly one subnet, of type
`"static"`, carrying the source IPv4 address and netmask verbatim, and MTU 1450; the
entry does not depend on the gateway; every entry of the config has this shape; and
the enclosing config has version 2. -/
theorem private_interface_entry_shape (vultrMetadata : VultrMetadata) (i : Nat)
    (v : VultrInterfaces) (gateway : String)
    (hv : vultrMetadata.Interfaces[i]? = some v) (hp : v.NetworkType = "private") :
    (noCloudNetworkConfig vultrMetadata).Version = 2 ∧
    networkInterface i v ∈ (noCloudNetworkConfig vultrMetadata).Config ∧
    (networkInterface i v).Typ = "physical" ∧
    (networkInterface i v).MacAddress = v.Mac ∧
    (networkInterface i v).Subnets =
      [{ Typ := "static", Address := v.IPv4.Address, Netmask := v.IPv4.Netmask }] ∧
    (networkInterface i v).MTU = 1450 ∧
    networkInterface i { v with IPv4 := { v.IPv4 with Gateway := gateway } } =
      networkInterface i v ∧
    (∀ e ∈ (noCloudNetworkConfig vultrMetadata).Config,
      e.Typ = "physical" ∧ e.MTU = 1450 ∧
      ∃ address netmask, e.Subnets = [{ Typ := "static", Address := address, Netmask := netmask }]) := by
  have h : (noCloudNetworkConfig vultrMetadata).Config = specConfig vultrMetadata.Interfaces :=
    interfacesLoop_eq_spec vultrMetadata.Interfaces
  refine ⟨rfl, ?_, rfl, rfl, rfl, rfl, rfl, ?_⟩
  · rw [h]
    exact (mem_specConfig _ _).2 ⟨i, v, hv, hp, rfl⟩
  · intro e he
    rw [h] at he
    obtain ⟨j, u, _, _, rfl⟩ := (mem_specConfig _ _).1 he
    exact ⟨rfl, rfl, _, _, rfl⟩

/-- Witness for C3: the private interface `B` at position 1 of the example list. -/
theorem private_interface_entry_shape_witness :
    exampleDocument.Interfaces[1]? = some
      { Mac := "B", NetworkType := "private", NetworkID := "net1",
        IPv4 := { Address := "10.1.0.2", Gateway := "10.1.0.1", Netmask := "255.255.255.0" } } ∧
    ({ Typ := "physical", Name := "eth1", MacAddress := "B",
       Subnets := [{ Typ := "static", Address := "10.1.0.2", Netmask := "255.255.255.0" }],
       MTU := 1450 } : NoCloudNetworkInterface) ∈ (noCloudNetworkConfig exampleDocument).Config :=
  ⟨rfl, (private_interface_entry_shape exampleDocument 1
      { Mac := "B", NetworkType := "private", NetworkID := "net1",
        IPv4 := { Address := "10.1.0.2", Gateway := "10.1.0.1", Netmask := "255.255.255.0" } }
      "" rfl rfl).2.1⟩

/-- C4: for every provider document the derived `NoCloudMetadata` has the document's
instance identifier, its region code, its host name both as `Hostname` and as
`LocalHostname`, the sentinel `"unknown"` as `AmiID` and as `AvailabilityZone`, and
no tags. -/
theorem noCloudMetadata_fields (vultrMetadata : VultrMetadata) :
    (noCloudMetadata vultrMetadata).InstanceID = vultrMetadata.InstanceID ∧
    (noCloudMetadata vultrMetadata).Region = vultrMetadata.Region.RegionCode ∧
    (noCloudMetadata vultrMetadata).Hostname = vultrMetadata.Hostname ∧
    (noCloudMetadata vultrMetadata).LocalHostname = vultrMetadata.Hostname ∧
    (noCloudMetadata vultrMetadata).AmiID = "unknown" ∧
    (noCloudMetadata vultrMetadata).AvailabilityZone = "unknown" ∧
    (noCloudMetadata vultrMetadata).Tags = [] :=
  ⟨rfl, rfl, rfl, rfl, rfl, rfl, rfl⟩

/-- C5: for every list of addresses of one poll the watcher selects the first
address in list order that is an IPv4 address and not a loopback address, and
selects nothing when no address qualifies; for `[::1, 127.0.0.1, 10.0.0.5/24,
fe80::1]` it selects `10.0.0.5`. -/
theorem addrLoop_selects_first_qualifying (addrs : List Addr) :
    addrLoop addrs = (addrs.find? qualifies).bind addrIP ∧
    (addrLoop addrs = none ↔ ∀ a ∈ addrs, qualifies a = false) ∧
    (∀ ip, addrLoop addrs = some ip ↔
      ∃ pre a post, addrs = pre ++ a :: post ∧ (∀ b ∈ pre, qualifies b = false) ∧
        qualifies a = true ∧ addrIP a = some ip) ∧
    addrLoop exampleAddrs = some (IPv4 10 0 0 5) ∧
    To4 (IPv4 10 0 0 5) = some [10, 0, 0, 5] := by
  have h := addrLoop_eq_find addrs
  refine ⟨h, ?_, ?_, by decide, by decide⟩
  · rw [h]
    constructor
    · intro hn a ha
      cases hf : addrs.find? qualifies with
      | none =>
        have := List.find?_eq_none.1 hf a ha
        simpa using this
      | some b =>
        have hq : qualifies b = true := List.find?_some hf
        rw [hf] at hn
        simp only [Option.some_bind] at hn
        simp [qualifies, hn] at hq
    · intro hall
      have : addrs.find? qualifies = none := by
        rw [List.find?_eq_none]
        intro a ha
        simp [hall a ha]
      simp [this]
  · intro ip
    rw [h]
    constructor
    · intro hs
      cases hf : addrs.find? qualifies with
      | none => simp [hf] at hs
      | some a =>
        rw [hf] at hs
        obtain ⟨hq, pre, post, hsplit, hpre⟩ := List.find?_eq_some.1 hf
        refine ⟨pre, a, post, hsplit, ?_, hq, by simpa using hs⟩
        intro b hb
        simpa using hpre b hb
    · rintro ⟨pre, a, post, rfl, hpre, hq, hip⟩
      have hf : (pre ++ a :: post).find? qualifies = some a := by
        rw [List.find?_eq_some]
        exact ⟨hq, pre, post, rfl, fun b hb => by simp [hpre b hb]⟩
      simp [hf, hip]
/-! ## `path.Join` keeps the last element -/

theorem takeWhile_plain (n : List Char) (h : '/' ∉ n) :
    n.takeWhile (fun x => x != '/') = n := by
  rw [List.takeWhile_eq_self_iff]
  intro x hx
  have : x ≠ '/' := fun e => h (e ▸ hx)
  simpa using this

theorem dropWhile_plain (n : List Char) (h : '/' ∉ n) :
    n.dropWhile (fun x => x != '/') = [] := by
  rw [List.dropWhile_eq_nil_iff]
  intro x hx
  have : x ≠ '/' := fun e => h (e ▸ hx)
  simpa using this

theorem takeWhile_append_slash (p n : List Char) :
    (p ++ '/' :: n).takeWhile (fun x => x != '/') = p.takeWhile (fun x => x != '/') := by
  induction p with
  | nil => simp
  | cons c p ih =>
    by_cases hc : c = '/'
    · simp [hc]
    · simp [List.takeWhile_cons, hc, ih]

theorem dropWhile_append_slash (p n : List Char) :
    (p ++ '/' :: n).dropWhile (fun x => x != '/') =
      p.dropWhile (fun x => x != '/') ++ '/' :: n := by
  induction p with
  | nil => simp
  | cons c p ih =>
    by_cases hc : c = '/'
    · simp [hc]
    · simp [List.dropWhile_cons, hc, ih]

theorem dropWhile_length_le (p : List Char) :
    (p.dropWhile (fun x => x != '/')).length ≤ p.length := by
  induction p with
  | nil => simp
  | cons c p ih =>
    simp only [List.dropWhile_cons]
    split
    · simp only [List.length_cons]; omega
    · simp

/-- The buffer after the last element `n` has been copied. -/
theorem cleanLoop_plain (rooted : Bool) (n out : List Char) (dotdot fuel : Nat)
    (hn : PlainName n) (hf : n.length ≤ fuel) :
    cleanLoop rooted fuel n out dotdot =
      n.reverse ++ (if (rooted = true ∧ out.length ≠ 1) ∨ (rooted = false ∧ out.length ≠ 0)
        then '/' :: out else out) := by
  obtain ⟨hne, hs, hd, hdd⟩ := hn
  rcases n with _ | ⟨c, r⟩
  · exact absurd rfl hne
  · obtain ⟨f, rfl⟩ : ∃ f, fuel = f + 1 := ⟨fuel - 1, by simp at hf; omega⟩
    have hc : c ≠ '/' := fun e => hs (by simp [e])
    have hr : '/' ∉ r := fun e => hs (by simp [e])
    have h2 : ¬ (c = '.' ∧ (r = [] ∨ r.head? = some '/')) := by
      rintro ⟨rfl, h | h⟩
      · exact hd (by simp [h])
      · rcases r with _ | ⟨d, r⟩
        · simp at h
        · simp at h; exact hr (by simp [h])
    have h3 : ¬ (c = '.' ∧ r.head? = some '.' ∧ (r.tail = [] ∨ r.tail.head? = some '/')) := by
      rintro ⟨rfl, h1, h⟩
      rcases r with _ | ⟨d, r⟩
      · simp at h1
      · simp at h1
        subst h1
        rcases h with h | h
        · exact hdd (by simp at h; simp [h])
        · rcases r with _ | ⟨e, r⟩
          · simp at h
          · simp at h; exact hr (by simp [h])
    have htake := takeWhile_plain (c :: r) hs
    have hdrop := dropWhile_plain (c :: r) hs
    simp only [cleanLoop, hc, if_false, h2, h3, htake, hdrop]
    cases f <;> simp [cleanLoop]

theorem dotEnd_append_slash (p n : List Char) :
    (p ++ '/' :: n = [] ∨ (p ++ '/' :: n).head? = some '/') ↔
      (p = [] ∨ p.head? = some '/') := by
  rcases p with _ | ⟨d, p⟩ <;> simp

theorem dotDotEnd_append_slash (p n : List Char) :
    ((p ++ '/' :: n).head? = some '.' ∧
        ((p ++ '/' :: n).tail = [] ∨ (p ++ '/' :: n).tail.head? = some '/')) ↔
      (p.head? = some '.' ∧ (p.tail = [] ∨ p.tail.head? = some '/')) := by
  rcases p with _ | ⟨d, _ | ⟨e, p⟩⟩ <;> simp

theorem cleanLoop_slash (rooted : Bool) (f : Nat) (r out : List Char) (dotdot : Nat) :
    cleanLoop rooted (f + 1) ('/' :: r) out dotdot = cleanLoop rooted f r out dotdot := by
  simp [cleanLoop]

theorem cleanLoop_dot (rooted : Bool) (f : Nat) (r out : List Char) (dotdot : Nat)
    (h : r = [] ∨ r.head? = some '/') :
    cleanLoop rooted (f + 1) ('.' :: r) out dotdot = cleanLoop rooted f r out dotdot := by
  simp [cleanLoop, h]

theorem cleanLoop_dotdot (rooted : Bool) (f : Nat) (r out : List Char) (dotdot : Nat)
    (h : r = [] ∨ r.head? = some '/') :
    cleanLoop rooted (f + 1) ('.' :: '.' :: r) out dotdot =
      if out.length > dotdot then
        match out with
        | [] => cleanLoop rooted f r out dotdot
        | last :: out1 => cleanLoop rooted f r (backtrackLoop dotdot out1 last) dotdot
      else if rooted = false then
        cleanLoop rooted f r ('.' :: '.' :: (if out.length > 0 then '/' :: out else out))
          ((if out.length > 0 then '/' :: out else out).length + 2)
      else cleanLoop rooted f r out dotdot := by
  simp [cleanLoop, h]

theorem cleanLoop_elem (rooted : Bool) (f : Nat) (c : Char) (r out : List Char) (dotdot : Nat)
    (hc : c ≠ '/') (hA : ¬ (c = '.' ∧ (r = [] ∨ r.head? = some '/')))
    (hB : ¬ (c = '.' ∧ r.head? = some '.' ∧ (r.tail = [] ∨ r.tail.head? = some '/'))) :
    cleanLoop rooted (f + 1) (c :: r) out dotdot =
      cleanLoop rooted f ((c :: r).dropWhile (fun x => x != '/'))
        (((c :: r).takeWhile (fun x => x != '/')).reverse ++
          (if (rooted = true ∧ out.length ≠ 1) ∨ (rooted = false ∧ out.length ≠ 0)
            then '/' :: out else out)) dotdot := by
  simp only [cleanLoop, hc, if_false, hA, hB]

/-- Cleaning `p ++ "/" ++ n` copies the plain name `n` last, after a buffer that
depends on `p` only. -/
theorem cleanLoop_append_name (rooted : Bool) (len : Nat) :
    ∀ (p out : List Char) (dotdot : Nat), p.length ≤ len →
      ∃ X : List Char, ∀ n, PlainName n → ∀ fuel, p.length + 1 + n.length ≤ fuel →
        cleanLoop rooted fuel (p ++ '/' :: n) out dotdot = n.reverse ++ X := by
  have base : ∀ (out : List Char) (dotdot : Nat),
      ∃ X : List Char, ∀ n, PlainName n → ∀ fuel, ([] : List Char).length + 1 + n.length ≤ fuel →
        cleanLoop rooted fuel ([] ++ '/' :: n) out dotdot = n.reverse ++ X := by
    intro out dotdot
    refine ⟨if (rooted = true ∧ out.length ≠ 1) ∨ (rooted = false ∧ out.length ≠ 0)
        then '/' :: out else out, fun n hn fuel hf => ?_⟩
    obtain ⟨f, rfl⟩ : ∃ f, fuel = f + 1 := ⟨fuel - 1, by omega⟩
    rw [List.nil_append, cleanLoop_slash]
    exact cleanLoop_plain rooted n out dotdot f hn (by simp at hf; omega)
  induction len with
  | zero =>
    intro p out dotdot hp
    have hp0 : p = [] := List.length_eq_zero.1 (by omega)
    subst hp0
    exact base out dotdot
  | succ len ih =>
    intro p out dotdot hp
    rcases p with _ | ⟨c, p⟩
    · exact base out dotdot
    · have hp1 : p.length ≤ len := by simp at hp; omega
      by_cases hc : c = '/'
      · obtain ⟨X, hX⟩ := ih p out dotdot hp1
        refine ⟨X, fun n hn fuel hf => ?_⟩
        obtain ⟨f, rfl⟩ : ∃ f, fuel = f + 1 := ⟨fuel - 1, by omega⟩
        rw [List.cons_append, hc, cleanLoop_slash]
        exact hX n hn f (by simp at hf; omega)
      · by_cases hA : c = '.' ∧ (p = [] ∨ p.head? = some '/')
        · obtain ⟨X, hX⟩ := ih p out dotdot hp1
          refine ⟨X, fun n hn fuel hf => ?_⟩
          obtain ⟨f, rfl⟩ : ∃ f, fuel = f + 1 := ⟨fuel - 1, by omega⟩
          rw [List.cons_append, hA.1,
            cleanLoop_dot _ _ _ _ _ ((dotEnd_append_slash p n).2 hA.2)]
          exact hX n hn f (by simp at hf; omega)
        · by_cases hB : c = '.' ∧ p.head? = some '.' ∧ (p.tail = [] ∨ p.tail.head? = some '/')
          · obtain ⟨hcd, hhead, hend⟩ := hB
            rcases p with _ | ⟨d, q⟩
            · simp at hhead
            · have hq : q.length ≤ len := by simp at hp1; omega
              have hd : d = '.' := by simpa using hhead
              have hend1 : q = [] ∨ q.head? = some '/' := by simpa using hend
              have key : ∀ (out1 : List Char) (dd1 : Nat), ∃ X : List Char, ∀ n, PlainName n →
                  ∀ f, (c :: d :: q).length + 1 + n.length ≤ f + 1 →
                    cleanLoop rooted f (q ++ '/' :: n) out1 dd1 = n.reverse ++ X := by
                intro out1 dd1
                obtain ⟨X, hX⟩ := ih q out1 dd1 hq
                exact ⟨X, fun n hn f hf => hX n hn f (by simp at hf; omega)⟩
              have step : ∀ (n : List Char) (f : Nat),
                  cleanLoop rooted (f + 1) ((c :: d :: q) ++ '/' :: n) out dotdot =
                    if out.length > dotdot then
                      match out with
                      | [] => cleanLoop rooted f (q ++ '/' :: n) out dotdot
                      | last :: out1 =>
                        cleanLoop rooted f (q ++ '/' :: n) (backtrackLoop dotdot out1 last) dotdot
                    else if rooted = false then
                      cleanLoop rooted f (q ++ '/' :: n)
                        ('.' :: '.' :: (if out.length > 0 then '/' :: out else out))
                        ((if out.length > 0 then '/' :: out else out).length + 2)
                    else cleanLoop rooted f (q ++ '/' :: n) out dotdot := by
                intro n f
                rw [List.cons_append, List.cons_append, hcd, hd]
                exact cleanLoop_dotdot _ _ _ _ _ ((dotEnd_append_slash q n).2 hend1)
              by_cases hw : out.length > dotdot
              · rcases out with _ | ⟨last, out1⟩
                · simp at hw
                · obtain ⟨X, hX⟩ := key (backtrackLoop dotdot out1 last) dotdot
                  refine ⟨X, fun n hn fuel hf => ?_⟩
                  obtain ⟨f, rfl⟩ : ∃ f, fuel = f + 1 := ⟨fuel - 1, by omega⟩
                  rw [step, if_pos hw]
                  exact hX n hn f hf
              · by_cases hr : rooted = false
                · obtain ⟨X, hX⟩ := key ('.' :: '.' :: (if out.length > 0 then '/' :: out else out))
                    ((if out.length > 0 then '/' :: out else out).length + 2)
                  refine ⟨X, fun n hn fuel hf => ?_⟩
                  obtain ⟨f, rfl⟩ : ∃ f, fuel = f + 1 := ⟨fuel - 1, by omega⟩
                  rw [step, if_neg hw, if_pos hr]
                  exact hX n hn f hf
                · obtain ⟨X, hX⟩ := key out dotdot
                  refine ⟨X, fun n hn fuel hf => ?_⟩
                  obtain ⟨f, rfl⟩ : ∃ f, fuel = f + 1 := ⟨fuel - 1, by omega⟩
                  rw [step, if_neg hw, if_neg hr]
                  exact hX n hn f hf
          · have hd : (p.dropWhile (fun x => x != '/')).length ≤ len :=
              le_trans (dropWhile_length_le p) hp1
            obtain ⟨X, hX⟩ := ih (p.dropWhile (fun x => x != '/'))
              (((c :: p).takeWhile (fun x => x != '/')).reverse ++
                (if (rooted = true ∧ out.length ≠ 1) ∨ (rooted = false ∧ out.length ≠ 0)
                  then '/' :: out else out)) dotdot hd
            refine ⟨X, fun n hn fuel hf => ?_⟩
            obtain ⟨f, rfl⟩ : ∃ f, fuel = f + 1 := ⟨fuel - 1, by omega⟩
            have ht := takeWhile_append_slash (c :: p) n
            have hdr := dropWhile_append_slash (c :: p) n
            have hdc : (c :: p).dropWhile (fun x => x != '/') =
                p.dropWhile (fun x => x != '/') := by
              simp [List.dropWhile_cons, hc]
            rw [hdc] at hdr
            rw [List.cons_append] at ht hdr ⊢
            rw [cleanLoop_elem rooted f c _ out dotdot hc
              (fun h => hA ⟨h.1, (dotEnd_append_slash p n).1 h.2⟩)
              (fun h => hB ⟨h.1, (dotDotEnd_append_slash p n).1 h.2⟩), ht, hdr]
            refine hX n hn f ?_
            have := dropWhile_length_le p
            simp at hf
            omega

/-- Cleaning `dir ++ "/" ++ name` for a non-empty `dir` and a plain `name` ends in
`name`, after a beginning that depends on `dir` only. -/
theorem pathClean_append_name (dir : List Char) (hdir : dir ≠ []) :
    ∃ Y : List Char, ∀ n, PlainName n → pathClean (dir ++ '/' :: n) = Y ++ n := by
  rcases dir with _ | ⟨c, p⟩
  · exact absurd rfl hdir
  · by_cases hc : c = '/'
    · obtain ⟨X, hX⟩ := cleanLoop_append_name true p.length p ['/'] 1 (le_refl _)
      refine ⟨X.reverse, fun n hn => ?_⟩
      have h := hX n hn ((c :: p) ++ '/' :: n).length (by simp; omega)
      have hne : n.reverse ++ X ≠ [] := by
        intro e
        have : n.reverse = [] := (List.append_eq_nil.1 e).1
        exact hn.1 (by simpa using this)
      simp only [pathClean, List.cons_append, hc, List.head?_cons, beq_self_eq_true, if_true,
        List.tail_cons, reduceCtorEq, if_false]
      rw [List.cons_append, hc] at h
      rw [h]
      simp [hne]
    · obtain ⟨X, hX⟩ := cleanLoop_append_name false (c :: p).length (c :: p) [] 0 (le_refl _)
      refine ⟨X.reverse, fun n hn => ?_⟩
      have h := hX n hn ((c :: p) ++ '/' :: n).length (by simp; omega)
      have hne : n.reverse ++ X ≠ [] := by
        intro e
        have : n.reverse = [] := (List.append_eq_nil.1 e).1
        exact hn.1 (by simpa using this)
      have hb : (some c == some '/') = false := by simp [hc]
      simp only [pathClean, List.cons_append, List.head?_cons, hb, reduceCtorEq, if_false]
      rw [List.cons_append] at h
      rw [h]
      simp [hne]

/-- Under a non-empty directory two different plain names are joined to different
paths. -/
theorem pathJoin_injective (dir n1 n2 : String) (hdir : dir.length ≠ 0)
    (h1 : PlainName n1.data) (h2 : PlainName n2.data) (hne : n1 ≠ n2) :
    pathJoin [dir, n1] ≠ pathJoin [dir, n2] := by
  have hd : dir.data ≠ [] := by
    intro e
    apply hdir
    simp [String.length, e]
  have hl : ∀ n : String, (([dir, n].map String.length).sum = 0) = False := by
    intro n
    simp [hdir]
  have hb : ∀ n : String, joinBuf ([dir, n].map String.data) [] = dir.data ++ '/' :: n.data := by
    intro n
    have hpos : 0 < dir.length := by omega
    simp [joinBuf, hpos, hd]
  obtain ⟨Y, hY⟩ := pathClean_append_name dir.data hd
  simp only [pathJoin, hl, if_false, hb, hY _ h1, hY _ h2]
  intro e
  apply hne
  have e1 : Y ++ n1.data = Y ++ n2.data := congrArg String.data e
  have e2 := List.append_cancel_left e1
  exact String.ext e2

/-! ## The polling loop and the way to the fetch -/

theorem writes_append (a b : List Event) : writes (a ++ b) = writes a ++ writes b := by
  induction a with
  | nil => rfl
  | cons e a ih => cases e <;> simp [writes, ih]

theorem idlePolls_succ (N : Nat) :
    idlePolls (N + 1) = [Event.addrs, Event.sleep (5 * timeSecond)] ++ idlePolls N := by
  simp [idlePolls, List.replicate_succ]

theorem writes_idlePolls (N : Nat) : writes (idlePolls N) = [] := by
  induction N with
  | zero => rfl
  | succ N ih => rw [idlePolls_succ, writes_append, ih]; rfl

theorem writes_traceToFetch (env : Env) (N : Nat) : writes (traceToFetch env N) = [] := by
  simp only [traceToFetch, writes_append, writes_idlePolls]
  cases env.processAtFound <;> rfl

theorem awaitLoop_found (env : Env) (N : Nat) :
    ∀ (fuel k : Nat) (w : World) (ip : IP),
      (∀ j, j < N → ∃ addrs, env.addrs (k + j) = .ok addrs ∧ addrs.find? qualifies = none) →
      (∃ addrs a, env.addrs (k + N) = .ok addrs ∧ addrs.find? qualifies = some a ∧
        addrIP a = some ip) →
      N < fuel →
      awaitLoop env fuel k w =
        some ({ trace := w.trace ++ idlePolls N ++ [Event.addrs] ++
                  (if env.processAtFound = true then [Event.kill] else [])
                files := w.files }, .ok ip) := by
  induction N with
  | zero =>
    intro fuel k w ip _ hyes hfuel
    obtain ⟨f, rfl⟩ : ∃ f, fuel = f + 1 := ⟨fuel - 1, by omega⟩
    obtain ⟨addrs, a, hk, hfind, hip⟩ := hyes
    have hsel : addrLoop addrs = some ip := by simp [addrLoop_eq_find, hfind, hip]
    rw [Nat.add_zero] at hk
    simp only [awaitLoop, hk, hsel]
    cases env.processAtFound <;> simp [World.emit, idlePolls]
  | succ N ih =>
    intro fuel k w ip hno hyes hfuel
    obtain ⟨f, rfl⟩ : ∃ f, fuel = f + 1 := ⟨fuel - 1, by omega⟩
    obtain ⟨addrs, hk, hfind⟩ := hno 0 (by omega)
    have hsel : addrLoop addrs = none := by simp [addrLoop_eq_find, hfind]
    rw [Nat.add_zero] at hk
    simp only [awaitLoop, hk, hsel]
    rw [ih f (k + 1) _ ip (fun j hj => by
      have := hno (j + 1) (by omega)
      rwa [show k + (j + 1) = k + 1 + j by omega] at this)
      (by rwa [show k + (N + 1) = k + 1 + N by omega] at hyes) (by omega)]
    simp [World.emit, idlePolls_succ]

theorem awaitLoop_short (env : Env) (fuel : Nat) :
    ∀ (N k : Nat) (w : World),
      (∀ j, j < N → ∃ addrs, env.addrs (k + j) = .ok addrs ∧ addrs.find? qualifies = none) →
      fuel ≤ N → awaitLoop env fuel k w = none := by
  induction fuel with
  | zero => intro N k w _ _; rfl
  | succ f ih =>
    intro N k w hno hfuel
    obtain ⟨addrs, hk, hfind⟩ := hno 0 (by omega)
    have hsel : addrLoop addrs = none := by simp [addrLoop_eq_find, hfind]
    rw [Nat.add_zero] at hk
    simp only [awaitLoop, hk, hsel]
    exact ih (N - 1) (k + 1) _ (fun j hj => by
      have := hno (j + 1) (by omega)
      rwa [show k + (j + 1) = k + 1 + j by omega] at this) (by omega)

theorem awaitLoop_writes (env : Env) (fuel : Nat) :
    ∀ (k : Nat) (w w1 : World) (x : Except String IP),
      awaitLoop env fuel k w = some (w1, x) →
        writes w1.trace = writes w.trace ∧ w1.files = w.files := by
  induction fuel with
  | zero => intro k w w1 x h; simp [awaitLoop] at h
  | succ f ih =>
    intro k w w1 x h
    simp only [awaitLoop] at h
    cases hk : env.addrs k with
    | error err =>
      simp only [hk, Option.some.injEq, Prod.mk.injEq] at h
      obtain ⟨rfl, _⟩ := h
      simp [World.emit, writes_append, writes]
    | ok addrs =>
      simp only [hk] at h
      cases hsel : addrLoop addrs with
      | some ip =>
        simp only [hsel, Option.some.injEq, Prod.mk.injEq] at h
        obtain ⟨rfl, _⟩ := h
        cases env.processAtFound <;> simp [World.emit, writes_append, writes]
      | none =>
        simp only [hsel] at h
        have := ih _ _ _ _ h
        simpa [World.emit, writes_append, writes] using this

theorem main_reaches_fetch (env : Env) (N fuel : Nat) (ip : IP)
    (hreach : ReachesFetch env N ip) (hfuel : N < fuel) :
    main fuel env =
      some (match getMetadata env with
        | .error err => fatal (worldAtFetch env N) err
        | .ok vultrMetadata => mainWrite env (worldAtFetch env N) vultrMetadata) := by
  obtain ⟨hdir, hstat, hif, hno, hyes⟩ := hreach
  have hloop := awaitLoop_found env N fuel 0
    ((({ trace := [], files := env.files } : World).emit
      (.startHelper "/usr/sbin/dhclient" ["-1", "-v", "-d", "eth0"])).emit
      (.interfaceByName "eth0")) ip
    (fun j hj => by simpa using hno j hj) (by simpa using hyes) hfuel
  simp only [main, hdir, if_false, hstat, mainNetwork, hif, hloop, mainFetch]
  simp [World.emit, worldAtFetch, traceToFetch]

/-! ## The three writes -/

theorem plainName_metaData : PlainName "meta-data".data :=
  ⟨by decide, by decide, by decide, by decide⟩

theorem plainName_networkConfig : PlainName "network-config".data :=
  ⟨by decide, by decide, by decide, by decide⟩

theorem mainWrite_writes_prefix (env : Env) (w : World) (vultrMetadata : VultrMetadata)
    (hw : writes w.trace = []) :
    writes (mainWrite env w vultrMetadata).world.trace <+:
      [artifact env "meta-data", artifact env "network-config", artifact env "user-data"] := by
  simp only [mainWrite, writeMetadata, writeNetworkConfig, writeUserData, ioutilWriteFile,
    artifact]
  cases env.writeFile (pathJoin [env.outputDirectory, "meta-data"]) <;>
    cases env.writeFile (pathJoin [env.outputDirectory, "network-config"]) <;>
    cases env.writeFile (pathJoin [env.outputDirectory, "user-data"]) <;>
    cases hk : env.processAtReturn <;>
    simp [fatal, returnMain, deferredKill, hk, World.emit, writes_append, writes, hw]

theorem main_writes_prefix (fuel : Nat) (env : Env) (r : Run) (h : main fuel env = some r) :
    writes r.world.trace <+:
      [artifact env "meta-data", artifact env "network-config", artifact env "user-data"] := by
  simp only [main] at h
  split at h
  · simp only [Option.some.injEq] at h
    subst h
    simp [fatal, writes]
  · split at h
    · split at h
      · simp only [Option.some.injEq] at h
        subst h
        simp [fatal, writes]
      · simp only [mainNetwork] at h
        split at h
        · simp only [Option.some.injEq] at h
          subst h
          simp [fatal, World.emit, writes]
        · split at h
          · simp at h
          · rename_i w3 err hloop
            simp only [Option.some.injEq] at h
            subst h
            have := (awaitLoop_writes env fuel _ _ _ _ hloop).1
            simp [fatal, this, World.emit, writes]
          · rename_i w3 ip hloop
            simp only [Option.some.injEq] at h
            subst h
            have hw3 := (awaitLoop_writes env fuel _ _ _ _ hloop).1
            simp only [mainFetch]
            split
            · simp [fatal, World.emit, writes_append, hw3, writes]
            · apply mainWrite_writes_prefix
              simp [World.emit, writes_append, hw3, writes]
    · split at h
      · simp only [Option.some.injEq] at h
        subst h
        simp [writes]
      · simp only [Option.some.injEq] at h
        subst h
        simp [fatal, writes]

theorem plainName_userData : PlainName "user-data".data :=
  ⟨by decide, by decide, by decide, by decide⟩

theorem artifact_ne (env : Env) (hdir : env.outputDirectory.length ≠ 0) :
    artifact env "meta-data" ≠ artifact env "network-config" ∧
    artifact env "meta-data" ≠ artifact env "user-data" ∧
    artifact env "network-config" ≠ artifact env "user-data" :=
  ⟨pathJoin_injective env.outputDirectory "meta-data" "network-config" hdir
      plainName_metaData plainName_networkConfig (by decide),
    pathJoin_injective env.outputDirectory "meta-data" "user-data" hdir
      plainName_metaData plainName_userData (by decide),
    pathJoin_injective env.outputDirectory "network-config" "user-data" hdir
      plainName_networkConfig plainName_userData (by decide)⟩

/-- The four ways in which lines 169-231 end, by the results of the three writes. -/
theorem mainWrite_cases (env : Env) (w : World) (vultrMetadata : VultrMetadata)
    (hdir : env.outputDirectory.length ≠ 0) :
    (∀ err, (env.writeFile (artifact env "meta-data")).err = some err →
      (mainWrite env w vultrMetadata).outcome =
        .fatal ("Error writing metadata file: " ++ err) ∧
      (mainWrite env w vultrMetadata).world.trace =
        w.trace ++ [metaDataWrite env vultrMetadata] ∧
      (mainWrite env w vultrMetadata).world.files (artifact env "network-config") =
        w.files (artifact env "network-config") ∧
      (mainWrite env w vultrMetadata).world.files (artifact env "user-data") =
        w.files (artifact env "user-data")) ∧
    (∀ err, env.writeFile (artifact env "meta-data") = .ok →
      (env.writeFile (artifact env "network-config")).err = some err →
      (mainWrite env w vultrMetadata).outcome =
        .fatal ("Error writing network config file: " ++ err) ∧
      (mainWrite env w vultrMetadata).world.trace =
        w.trace ++ [metaDataWrite env vultrMetadata, networkConfigWrite env vultrMetadata] ∧
      (mainWrite env w vultrMetadata).world.files (artifact env "meta-data") =
        some (env.jsonMarshal (noCloudMetadata vultrMetadata)) ∧
      (mainWrite env w vultrMetadata).world.files (artifact env "user-data") =
        w.files (artifact env "user-data")) ∧
    (∀ err, env.writeFile (artifact env "meta-data") = .ok →
      env.writeFile (artifact env "network-config") = .ok →
      (env.writeFile (artifact env "user-data")).err = some err →
      (mainWrite env w vultrMetadata).outcome =
        .fatal ("Error writing metadata file: " ++ err) ∧
      (mainWrite env w vultrMetadata).world.trace =
        w.trace ++ [metaDataWrite env vultrMetadata, networkConfigWrite env vultrMetadata,
          userDataWrite env] ∧
      (mainWrite env w vultrMetadata).world.files (artifact env "meta-data") =
        some (env.jsonMarshal (noCloudMetadata vultrMetadata)) ∧
      (mainWrite env w vultrMetadata).world.files (artifact env "network-config") =
        some (env.yamlMarshal (noCloudNetworkConfig vultrMetadata))) ∧
    (env.writeFile (artifact env "meta-data") = .ok →
      env.writeFile (artifact env "network-config") = .ok →
      env.writeFile (artifact env "user-data") = .ok →
      (mainWrite env w vultrMetadata).outcome = .returned ∧
      (mainWrite env w vultrMetadata).world.trace =
        w.trace ++ [metaDataWrite env vultrMetadata, networkConfigWrite env vultrMetadata,
          userDataWrite env] ++ (if env.processAtReturn = true then [Event.kill] else []) ∧
      (mainWrite env w vultrMetadata).world.files (artifact env "meta-data") =
        some (env.jsonMarshal (noCloudMetadata vultrMetadata)) ∧
      (mainWrite env w vultrMetadata).world.files (artifact env "network-config") =
        some (env.yamlMarshal (noCloudNetworkConfig vultrMetadata)) ∧
      (mainWrite env w vultrMetadata).world.files (artifact env "user-data") = some "") := by
  obtain ⟨h12, h13, h23⟩ := artifact_ne env hdir
  have h21 := h12.symm
  have h31 := h13.symm
  have h32 := h23.symm
  simp only [artifact] at h12 h13 h23 h21 h31 h32
  simp only [mainWrite, writeMetadata, writeNetworkConfig, writeUserData, ioutilWriteFile,
    artifact, metaDataWrite, networkConfigWrite, userDataWrite]
  cases h1 : env.writeFile (pathJoin [env.outputDirectory, "meta-data"]) <;>
    cases h2 : env.writeFile (pathJoin [env.outputDirectory, "network-config"]) <;>
    cases h3 : env.writeFile (pathJoin [env.outputDirectory, "user-data"]) <;>
    cases hk : env.processAtReturn <;>
    simp [WriteResult.err, fatal, returnMain, deferredKill, hk, World.emit, Function.update,
      h12, h13, h23, h21, h31, h32]

theorem count_idlePolls_addrs (N : Nat) : (idlePolls N).count Event.addrs = N := by
  induction N with
  | zero => rfl
  | succ N ih =>
    rw [idlePolls_succ, List.count_append, ih]
    simp [List.count_cons]
    omega

theorem count_idlePolls_sleep (N : Nat) :
    (idlePolls N).count (Event.sleep (5 * timeSecond)) = N := by
  induction N with
  | zero => rfl
  | succ N ih =>
    rw [idlePolls_succ, List.count_append, ih]
    simp [List.count_cons]
    omega

theorem mem_idlePolls (N : Nat) (e : Event) (h : e ∈ idlePolls N) :
    e = Event.addrs ∨ e = Event.sleep (5 * timeSecond) := by
  induction N with
  | zero => simp [idlePolls] at h
  | succ N ih =>
    rw [idlePolls_succ] at h
    simp only [List.mem_append, List.mem_cons, List.mem_singleton, List.not_mem_nil,
      or_false] at h
    rcases h with (h | h) | h
    · exact Or.inl h
    · exact Or.inr h
    · exact ih h

/-! ## The claims about a run -/

/-- C6 (the code departs from it): on a fatal exit the deferred
`dhclient.Process.Kill()` does not run.  When `eth0` is missing, when the second
call of `iface.Addrs()` fails, and when the metadata service answers 500 after an
address was found before `dhclient.Process` was set, the process exits through
`logrus.Fatal` with no `Kill` in its trace, although `dhclient.Process` is set by
then; the normal return of `exampleEnv` does end with the deferred `Kill`. -/
theorem fatal_exit_skips_deferred_kill :
    (main 2 addrsErrorEnv).map (fun r => (r.world.trace, r.outcome)) =
      some ([ .startHelper "/usr/sbin/dhclient" ["-1", "-v", "-d", "eth0"],
              .interfaceByName "eth0", .addrs, .sleep 5000000000, .addrs ],
        .fatal "Error getting eth0 addresses: netlink: no such device") ∧
    (main 1 earlyAddressEnv).map (fun r => (r.world.trace, r.outcome)) =
      some ([ .startHelper "/usr/sbin/dhclient" ["-1", "-v", "-d", "eth0"],
              .interfaceByName "eth0", .addrs,
              .get "http://169.254.169.254/v1.json" 120000000000 ],
        .fatal "invalid response from metadata service: internal error") ∧
    (main 1 noEth0Env).map (fun r => (r.world.trace, r.outcome)) =
      some ([ .startHelper "/usr/sbin/dhclient" ["-1", "-v", "-d", "eth0"],
              .interfaceByName "eth0" ],
        .fatal "Error getting eth0: route ip+net: no such network interface") ∧
    (main 2 addrsErrorEnv).map (fun r => killed r.world.trace) = some false ∧
    (main 1 earlyAddressEnv).map (fun r => killed r.world.trace) = some false ∧
    (main 1 noEth0Env).map (fun r => killed r.world.trace) = some false ∧
    addrsErrorEnv.processAtReturn = true ∧ earlyAddressEnv.processAtReturn = true ∧
    noEth0Env.processAtReturn = true ∧
    (main 3 exampleEnv).map (fun r => (r.world.trace.getLast?, r.outcome)) =
      some (some .kill, .returned) := by
  decide

/-- C7 (the code departs from it): when `os.Stat` fails for a reason other than
non-existence, as for `-o /etc/hostname/x`, `main` calls `f.IsDir()` on the nil file
info and panics instead of reporting a configuration error; a missing path and a
regular file are reported through `logrus.Fatalf`, and in all three cases nothing
has been started. -/
theorem stat_error_other_than_not_exist_panics (fuel : Nat) :
    (main fuel notDirErrorEnv).map (fun r => (r.world.trace, r.outcome)) =
      some ([], .panic "runtime error: invalid memory address or nil pointer dereference") ∧
    (main fuel notExistEnv).map (fun r => (r.world.trace, r.outcome)) =
      some ([], .fatal
        "Error checking output directory: stat /no/such/dir: no such file or directory") ∧
    (main fuel regularFileEnv).map (fun r => (r.world.trace, r.outcome)) =
      some ([], .fatal "Output directory /etc/hostname is not a directory") :=
  ⟨rfl, rfl, rfl⟩

/-- C8: for every response of the metadata service whose status is not 200, or whose
status is 200 and whose body does not decode, `getMetadata` returns an error (for a
status other than 200 the message ends with the body text that was read); and a run
that gets as far as the fetch then ends fatally with that message, with no
`ioutil.WriteFile` call and the files as they were. -/
theorem fetch_failure_is_fatal_and_writes_nothing (env : Env) (N fuel : Nat) (ip : IP)
    (response : Response)
    (hreach : ReachesFetch env N ip) (hfuel : N < fuel)
    (hget : env.get = .ok response)
    (hbad : response.StatusCode ≠ 200 ∨
      ∃ body err, response.Body = .ok body ∧ env.unmarshal body = .error err) :
    ∃ msg, getMetadata env = .error msg ∧
      (∀ body, response.Body = .ok body → response.StatusCode ≠ 200 →
        msg = "invalid response from metadata service: " ++ body) ∧
      (∀ body, response.Body = .ok body → response.StatusCode = 200 →
        ∃ err, env.unmarshal body = .error err ∧
          msg = "error json unmarshalling metadata: " ++ err) ∧
      ∃ r, main fuel env = some r ∧ r.outcome = .fatal msg ∧
        r.world.trace = traceToFetch env N ∧ writes r.world.trace = [] ∧
        r.world.files = env.files := by
  have hmain := main_reaches_fetch env N fuel ip hreach hfuel
  have fin : ∀ msg, getMetadata env = .error msg →
      ∃ r, main fuel env = some r ∧ r.outcome = .fatal msg ∧
        r.world.trace = traceToFetch env N ∧ writes r.world.trace = [] ∧
        r.world.files = env.files := by
    intro msg hm
    rw [hm] at hmain
    exact ⟨_, hmain, rfl, rfl, writes_traceToFetch env N, rfl⟩
  cases hb : response.Body with
  | error e =>
    have hm : getMetadata env = .error ("error reading response body: " ++ e) := by
      simp [getMetadata, hget, hb]
    exact ⟨_, hm, fun body h => (by cases h), fun body h => (by cases h), fin _ hm⟩
  | ok body =>
    by_cases hs : response.StatusCode = 200
    · obtain ⟨err, herr⟩ : ∃ err, env.unmarshal body = .error err := by
        rcases hbad with h | ⟨body1, err, h1, h2⟩
        · exact absurd hs h
        · rw [hb] at h1
          cases h1
          exact ⟨err, h2⟩
      have hm : getMetadata env = .error ("error json unmarshalling metadata: " ++ err) := by
        simp [getMetadata, hget, hb, hs, herr]
      refine ⟨_, hm, fun _ _ h => absurd hs h, fun body1 h1 _ => ?_, fin _ hm⟩
      cases h1
      exact ⟨err, herr, rfl⟩
    · have hm : getMetadata env =
          .error ("invalid response from metadata service: " ++ body) := by
        simp [getMetadata, hget, hb, hs]
      refine ⟨_, hm, fun body1 h1 _ => ?_, fun _ _ h => absurd h hs, fin _ hm⟩
      cases h1
      rfl

/-- Witness for C8: the metadata service answers 500 with the body `internal error`. -/
theorem fetch_failure_is_fatal_and_writes_nothing_witness :
    ReachesFetch status500Env 2 (IPv4 10 0 0 5) ∧
    ∃ r, main 3 status500Env = some r ∧
      r.outcome = .fatal "invalid response from metadata service: internal error" ∧
      writes r.world.trace = [] ∧ r.world.files = status500Env.files := by
  have hreach : ReachesFetch status500Env 2 (IPv4 10 0 0 5) :=
    ⟨by decide, rfl, rfl,
      fun k hk => by interval_cases k <;> exact ⟨loopbackAddrs, rfl, by decide⟩,
      exampleAddrs, Addr.IPNet (IPv4 10 0 0 5) [0xff, 0xff, 0xff, 0], rfl, by decide, by decide⟩
  obtain ⟨msg, _, hmsg, _, r, hr, ho, _, hw, hf⟩ :=
    fetch_failure_is_fatal_and_writes_nothing status500Env 2 3 (IPv4 10 0 0 5)
      { StatusCode := 500, Body := .ok "internal error" } hreach (by decide)
      rfl (Or.inl (by decide))
  have hm := hmsg "internal error" rfl (by decide)
  rw [hm] at ho
  exact ⟨hreach, r, hr, ho, hw, hf⟩

/-- C9: the artifacts are written in the order meta-data, network-config,
user-data, and a failed write aborts the rest without rollback.  In every run that
gets as far as the writes: when the meta-data write fails the run ends fatally after
this one write; when it succeeds and the network-config write fails the run ends
fatally after exactly these two writes, user-data is never written, and the
meta-data file holds the content written to it; when only the user-data write fails
the run ends fatally after the three writes with the two earlier files in place;
and when all three succeed `main` returns after the three writes in this order, each
file holding its content.  In every finished run at all, the files written are, in
order, an initial part of meta-data, network-config, user-data. -/
theorem artifacts_written_in_order_failure_aborts (env : Env) (N fuel : Nat) (ip : IP)
    (vultrMetadata : VultrMetadata)
    (hreach : ReachesFetch env N ip) (hfuel : N < fuel)
    (hdoc : getMetadata env = .ok vultrMetadata) :
    (∃ r, main fuel env = some r ∧
      (∀ err, (env.writeFile (artifact env "meta-data")).err = some err →
        r.outcome = .fatal ("Error writing metadata file: " ++ err) ∧
        r.world.trace = traceToFetch env N ++ [metaDataWrite env vultrMetadata] ∧
        writes r.world.trace = [artifact env "meta-data"] ∧
        r.world.files (artifact env "network-config") =
          env.files (artifact env "network-config") ∧
        r.world.files (artifact env "user-data") = env.files (artifact env "user-data")) ∧
      (∀ err, env.writeFile (artifact env "meta-data") = .ok →
        (env.writeFile (artifact env "network-config")).err = some err →
        r.outcome = .fatal ("Error writing network config file: " ++ err) ∧
        r.world.trace = traceToFetch env N ++
          [metaDataWrite env vultrMetadata, networkConfigWrite env vultrMetadata] ∧
        writes r.world.trace = [artifact env "meta-data", artifact env "network-config"] ∧
        r.world.files (artifact env "meta-data") =
          some (env.jsonMarshal (noCloudMetadata vultrMetadata)) ∧
        r.world.files (artifact env "user-data") = env.files (artifact env "user-data")) ∧
      (∀ err, env.writeFile (artifact env "meta-data") = .ok →
        env.writeFile (artifact env "network-config") = .ok →
        (env.writeFile (artifact env "user-data")).err = some err →
        r.outcome = .fatal ("Error writing metadata file: " ++ err) ∧
        r.world.trace = traceToFetch env N ++
          [metaDataWrite env vultrMetadata, networkConfigWrite env vultrMetadata,
            userDataWrite env] ∧
        writes r.world.trace = [artifact env "meta-data", artifact env "network-config",
          artifact env "user-data"] ∧
        r.world.files (artifact env "meta-data") =
          some (env.jsonMarshal (noCloudMetadata vultrMetadata)) ∧
        r.world.files (artifact env "network-config") =
          some (env.yamlMarshal (noCloudNetworkConfig vultrMetadata))) ∧
      (env.writeFile (artifact env "meta-data") = .ok →
        env.writeFile (artifact env "network-config") = .ok →
        env.writeFile (artifact env "user-data") = .ok →
        r.outcome = .returned ∧
        r.world.trace = traceToFetch env N ++
          [metaDataWrite env vultrMetadata, networkConfigWrite env vultrMetadata,
            userDataWrite env] ++
          (if env.processAtReturn = true then [Event.kill] else []) ∧
        writes r.world.trace = [artifact env "meta-data", artifact env "network-config",
          artifact env "user-data"] ∧
        r.world.files (artifact env "meta-data") =
          some (env.jsonMarshal (noCloudMetadata vultrMetadata)) ∧
        r.world.files (artifact env "network-config") =
          some (env.yamlMarshal (noCloudNetworkConfig vultrMetadata)) ∧
        r.world.files (artifact env "user-data") = some "")) ∧
    (∀ (fuel1 : Nat) (env1 : Env) (r1 : Run), main fuel1 env1 = some r1 →
      writes r1.world.trace <+:
        [artifact env1 "meta-data", artifact env1 "network-config",
          artifact env1 "user-data"]) := by
  refine ⟨?_, fun fuel1 env1 r1 h => main_writes_prefix fuel1 env1 r1 h⟩
  have hmain := main_reaches_fetch env N fuel ip hreach hfuel
  rw [hdoc] at hmain
  obtain ⟨c1, c2, c3, c4⟩ := mainWrite_cases env (worldAtFetch env N) vultrMetadata hreach.1
  have hw0 : writes (worldAtFetch env N).trace = [] := writes_traceToFetch env N
  refine ⟨_, hmain, ?_, ?_, ?_, ?_⟩
  · intro err h1
    obtain ⟨ho, ht, hf2, hf3⟩ := c1 err h1
    refine ⟨ho, ht, ?_, hf2, hf3⟩
    rw [ht, writes_append, hw0]
    rfl
  · intro err h1 h2
    obtain ⟨ho, ht, hf1, hf3⟩ := c2 err h1 h2
    refine ⟨ho, ht, ?_, hf1, hf3⟩
    rw [ht, writes_append, hw0]
    rfl
  · intro err h1 h2 h3
    obtain ⟨ho, ht, hf1, hf2⟩ := c3 err h1 h2 h3
    refine ⟨ho, ht, ?_, hf1, hf2⟩
    rw [ht, writes_append, hw0]
    rfl
  · intro h1 h2 h3
    obtain ⟨ho, ht, hf1, hf2, hf3⟩ := c4 h1 h2 h3
    refine ⟨ho, ht, ?_, hf1, hf2, hf3⟩
    rw [ht, writes_append, writes_append, hw0]
    cases env.processAtReturn <;> rfl

/-- Witness for C9: the disk is full when network-config is written; the file
meta-data cannot be opened; the write of user-data fails; and everything works. -/
theorem artifacts_written_in_order_failure_aborts_witness :
    (ReachesFetch diskFullEnv 2 (IPv4 10 0 0 5) ∧
      getMetadata diskFullEnv = .ok exampleDocument ∧
      ∃ r, main 3 diskFullEnv = some r ∧
        r.outcome =
          .fatal "Error writing network config file: no space left on device" ∧
        writes r.world.trace = [ "/var/lib/cloud/seed/nocloud/meta-data",
          "/var/lib/cloud/seed/nocloud/network-config" ] ∧
        r.world.files "/var/lib/cloud/seed/nocloud/meta-data" =
          some "\x7b\"instance-id\":\"i-1\",\"hostname\":\"guest\"\x7d" ∧
        r.world.files "/var/lib/cloud/seed/nocloud/user-data" = none) ∧
    (∃ r, main 3 readOnlyEnv = some r ∧
      r.outcome = .fatal "Error writing metadata file: permission denied" ∧
      writes r.world.trace = [ "/var/lib/cloud/seed/nocloud/meta-data" ]) ∧
    (∃ r, main 3 userDataFailEnv = some r ∧
      r.outcome = .fatal "Error writing metadata file: no space left on device" ∧
      writes r.world.trace = [ "/var/lib/cloud/seed/nocloud/meta-data",
        "/var/lib/cloud/seed/nocloud/network-config",
        "/var/lib/cloud/seed/nocloud/user-data" ]) ∧
    (∃ r, main 3 exampleEnv = some r ∧ r.outcome = .returned ∧
      writes r.world.trace = [ "/var/lib/cloud/seed/nocloud/meta-data",
        "/var/lib/cloud/seed/nocloud/network-config",
        "/var/lib/cloud/seed/nocloud/user-data" ] ∧
      r.world.files "/var/lib/cloud/seed/nocloud/user-data" = some "") := by
  have reach : ∀ env : Env, env.outputDirectory = exampleEnv.outputDirectory →
      env.stat = exampleEnv.stat → env.interfaceByName = exampleEnv.interfaceByName →
      env.addrs = exampleEnv.addrs → ReachesFetch env 2 (IPv4 10 0 0 5) := by
    intro env h1 h2 h3 h4
    refine ⟨by rw [h1]; decide, by rw [h2]; rfl, by rw [h3]; rfl, fun k hk => ?_, ?_⟩
    · rw [h4]
      interval_cases k <;> exact ⟨loopbackAddrs, rfl, by decide⟩
    · rw [h4]
      exact ⟨exampleAddrs, Addr.IPNet (IPv4 10 0 0 5) [0xff, 0xff, 0xff, 0], rfl,
        by decide, by decide⟩
  have hA := reach diskFullEnv rfl rfl rfl rfl
  obtain ⟨⟨rA, hrA, _, cA, _, _⟩, _⟩ :=
    artifacts_written_in_order_failure_aborts diskFullEnv 2 3 (IPv4 10 0 0 5)
      exampleDocument hA (by decide) rfl
  obtain ⟨oA, _, wA, fA, uA⟩ := cA "no space left on device" (by decide) (by decide)
  obtain ⟨⟨rB, hrB, cB, _, _, _⟩, _⟩ :=
    artifacts_written_in_order_failure_aborts readOnlyEnv 2 3 (IPv4 10 0 0 5)
      exampleDocument (reach readOnlyEnv rfl rfl rfl rfl) (by decide) rfl
  obtain ⟨oB, _, wB, _, _⟩ := cB "permission denied" (by decide)
  obtain ⟨⟨rC, hrC, _, _, cC, _⟩, _⟩ :=
    artifacts_written_in_order_failure_aborts userDataFailEnv 2 3 (IPv4 10 0 0 5)
      exampleDocument (reach userDataFailEnv rfl rfl rfl rfl) (by decide) rfl
  obtain ⟨oC, _, wC, _, _⟩ := cC "no space left on device" (by decide) (by decide) (by decide)
  obtain ⟨⟨rD, hrD, _, _, _, cD⟩, _⟩ :=
    artifacts_written_in_order_failure_aborts exampleEnv 2 3 (IPv4 10 0 0 5)
      exampleDocument (reach exampleEnv rfl rfl rfl rfl) (by decide) rfl
  obtain ⟨oD, _, wD, _, _, fD⟩ := cD (by decide) (by decide) (by decide)
  have pA1 : artifact diskFullEnv "meta-data" = "/var/lib/cloud/seed/nocloud/meta-data" := by
    decide
  have pA2 : artifact diskFullEnv "network-config" =
      "/var/lib/cloud/seed/nocloud/network-config" := by decide
  have pA3 : artifact diskFullEnv "user-data" = "/var/lib/cloud/seed/nocloud/user-data" := by
    decide
  have pB1 : artifact readOnlyEnv "meta-data" = "/var/lib/cloud/seed/nocloud/meta-data" := by
    decide
  have pC1 : artifact userDataFailEnv "meta-data" =
      "/var/lib/cloud/seed/nocloud/meta-data" := by decide
  have pC2 : artifact userDataFailEnv "network-config" =
      "/var/lib/cloud/seed/nocloud/network-config" := by decide
  have pC3 : artifact userDataFailEnv "user-data" =
      "/var/lib/cloud/seed/nocloud/user-data" := by decide
  have pD1 : artifact exampleEnv "meta-data" = "/var/lib/cloud/seed/nocloud/meta-data" := by
    decide
  have pD2 : artifact exampleEnv "network-config" =
      "/var/lib/cloud/seed/nocloud/network-config" := by decide
  have pD3 : artifact exampleEnv "user-data" = "/var/lib/cloud/seed/nocloud/user-data" := by
    decide
  rw [pA1, pA2] at wA
  rw [pA1] at fA
  rw [pA3] at uA
  rw [pB1] at wB
  rw [pC1, pC2, pC3] at wC
  rw [pD1, pD2, pD3] at wD
  rw [pD3] at fD
  exact ⟨⟨hA, rfl, rA, hrA, oA, wA, fA, uA⟩, ⟨rB, hrB, oB, wB⟩, ⟨rC, hrC, oC, wC⟩,
    ⟨rD, hrD, oD, wD, fD⟩⟩

/-- C10: for every `N`, if the first `N` address listings succeed without a
qualifying address and the next one has a qualifying address, the polling loop ends
with the first such address after exactly `N + 1` listings, having slept 5 seconds
once after each of the `N` unsuccessful ones and not after the successful one; `N`
iterations do not end it. -/
theorem awaitLoop_ends_after_idle_polls (env : Env) (N fuel : Nat) (w : World) (ip : IP)
    (hno : ∀ k, k < N → ∃ addrs, env.addrs k = .ok addrs ∧ ∀ a ∈ addrs, qualifies a = false)
    (hyes : ∃ addrs a, env.addrs N = .ok addrs ∧ addrs.find? qualifies = some a ∧
      addrIP a = some ip)
    (hfuel : N < fuel) :
    (∃ w1, awaitLoop env fuel 0 w = some (w1, .ok ip) ∧
      w1.trace = w.trace ++ idlePolls N ++ [Event.addrs] ++
        (if env.processAtFound = true then [Event.kill] else []) ∧
      w1.files = w.files) ∧
    idlePolls N = (List.replicate N [Event.addrs, Event.sleep 5000000000]).flatten ∧
    (idlePolls N ++ [Event.addrs]).count Event.addrs = N + 1 ∧
    (idlePolls N ++ [Event.addrs]).count (Event.sleep 5000000000) = N ∧
    (∀ ns, Event.sleep ns ∈ idlePolls N ++ [Event.addrs] → ns = 5000000000) ∧
    awaitLoop env N 0 w = none := by
  have hno1 : ∀ j, j < N →
      ∃ addrs, env.addrs (0 + j) = .ok addrs ∧ addrs.find? qualifies = none := by
    intro j hj
    obtain ⟨addrs, hk, hq⟩ := hno j hj
    refine ⟨addrs, by simpa using hk, ?_⟩
    rw [List.find?_eq_none]
    intro a ha
    simp [hq a ha]
  have hfound := awaitLoop_found env N fuel 0 w ip hno1 (by simpa using hyes) hfuel
  refine ⟨⟨_, hfound, rfl, rfl⟩, rfl, ?_, ?_, ?_, awaitLoop_short env N N 0 w hno1 (le_refl _)⟩
  · rw [List.count_append, count_idlePolls_addrs]
    rfl
  · have h := count_idlePolls_sleep N
    rw [List.count_append, show (5000000000 : Nat) = 5 * timeSecond from rfl, h]
    rfl
  · intro ns hns
    simp only [List.mem_append, List.mem_singleton, reduceCtorEq, or_false] at hns
    rcases mem_idlePolls N _ hns with h | h
    · cases h
    · injection h

/-- Witness for C10: two listings with loopback addresses only, then the example
list. -/
theorem awaitLoop_ends_after_idle_polls_witness :
    (∀ k, k < 2 → ∃ addrs, exampleEnv.addrs k = .ok addrs ∧
      ∀ a ∈ addrs, qualifies a = false) ∧
    (∃ w1, awaitLoop exampleEnv 3 0 { trace := [], files := exampleEnv.files } =
        some (w1, .ok (IPv4 10 0 0 5)) ∧
      w1.trace = [ .addrs, .sleep 5000000000, .addrs, .sleep 5000000000, .addrs, .kill ]) ∧
    awaitLoop exampleEnv 2 0 { trace := [], files := exampleEnv.files } = none := by
  have hno : ∀ k, k < 2 → ∃ addrs, exampleEnv.addrs k = .ok addrs ∧
      ∀ a ∈ addrs, qualifies a = false := by
    intro k hk
    interval_cases k <;> exact ⟨loopbackAddrs, rfl, by decide⟩
  obtain ⟨⟨w1, h1, ht, _⟩, _, _, _, _, hshort⟩ :=
    awaitLoop_ends_after_idle_polls exampleEnv 2 3 { trace := [], files := exampleEnv.files }
      (IPv4 10 0 0 5) hno
      ⟨exampleAddrs, Addr.IPNet (IPv4 10 0 0 5) [0xff, 0xff, 0xff, 0], rfl, by decide, by decide⟩
      (by decide)
  exact ⟨hno, ⟨w1, h1, by rw [ht]; rfl⟩, hshort⟩

end VultrCloudinit
